import Mathlib

/-!
Verification of the codexy patch-application engine and model-info utility.

The development shallowly embeds:
* `codexy/utils/model_info.py` (present in the repository source);
* the block-diff tool (`parse_diff_blocks`, `apply_diff_tool`) and the patch
  tool (`apply_patch`), whose implementation files are not part of the
  source tree here (only their test suites are); those are modelled from the
  specification, as marked in the individual doc comments.

Files on disk are modelled as an association list from paths to contents
(`FS`); all string processing is done over the character-list representation
of `String`, with structural recursion, so that every definition evaluates.
-/

/-! ## Definitions -/

/-- Whitespace test used for marker trimming and fuzzy line comparison. -/
def isWsChar (c : Char) : Bool :=
  c == ' ' || c == '\t' || c == '\r' || c == '\n'

/-- Split a character list at newline characters; `"a\nb"` gives two chunks,
the empty list gives one empty chunk. -/
def splitNlChars : List Char → List (List Char)
  | [] => [[]]
  | '\n' :: rest => [] :: splitNlChars rest
  | c :: rest =>
    match splitNlChars rest with
    | [] => [[c]]
    | l :: ls => (c :: l) :: ls

/-- Split a string into its lines (at `'\n'`). -/
def strLines (s : String) : List String :=
  (splitNlChars s.data).map String.mk

/-- Trim leading and trailing whitespace of a character list. -/
def trimChars (cs : List Char) : List Char :=
  ((cs.dropWhile isWsChar).reverse.dropWhile isWsChar).reverse

/-- Trim leading and trailing whitespace of a string. -/
def strTrim (s : String) : String :=
  String.mk (trimChars s.data)

/-- Drop the first `n` characters of a string. -/
def strDrop (s : String) (n : Nat) : String :=
  String.mk (s.data.drop n)

/-- Whether `pre` is a leading piece of `s` (character-wise). -/
def strStarts (s pre : String) : Bool :=
  decide (pre.data <+: s.data)

/-- Whether `suf` is a trailing piece of `s` (character-wise). -/
def strEnds (s suf : String) : Bool :=
  decide (suf.data <:+ s.data)

/-- Join lines with a single `'\n'` between them and no trailing terminator. -/
def joinLines : List String → String
  | [] => ""
  | [s] => s
  | s :: rest => s ++ "\n" ++ joinLines rest

/-- The relation `containsTok hay tok` states that `tok` occurs contiguously inside `hay`. -/
def containsTok (hay tok : String) : Prop :=
  tok.data <:+: hay.data

instance (hay tok : String) : Decidable (containsTok hay tok) :=
  inferInstanceAs (Decidable (tok.data <:+: hay.data))

/-- Boolean substring test (models Python's `in` on strings). -/
def strContainsB (hay tok : String) : Bool :=
  decide (containsTok hay tok)

/-- Ordered key/value pairs of the `MODEL_MAX_TOKENS` dictionary. -/
def MODEL_MAX_TOKENS : List (String × Nat) :=
  [("gpt-4-turbo", 128000),
   ("gpt-4-32k", 32768),
   ("gpt-4.1-32k", 32768),
   ("gpt-4", 8192),
   ("gpt-4.1", 8192),
   ("gpt-3.5-turbo-16k", 16384),
   ("gpt-3.5-turbo", 4096),
   ("o4-mini", 128000)]

def DEFAULT_MAX_TOKENS : Nat := 4096

/-- Dictionary lookup by exact key. -/
def lookupTok : List (String × Nat) → String → Option Nat
  | [], _ => none
  | (k, v) :: rest, m => if m = k then some v else lookupTok rest m

/-- Translated from `get_model_max_tokens`: exact dictionary hit first, then
the fixed chain of substring checks, then the default. -/
def get_model_max_tokens (model_name : String) : Nat :=
  match lookupTok MODEL_MAX_TOKENS model_name with
  | some v => v
  | none =>
    if strContainsB model_name "gpt-4-turbo" then
      (lookupTok MODEL_MAX_TOKENS "gpt-4-turbo").getD DEFAULT_MAX_TOKENS
    else if strContainsB model_name "gpt-4-32k" then
      (lookupTok MODEL_MAX_TOKENS "gpt-4-32k").getD DEFAULT_MAX_TOKENS
    else if strContainsB model_name "gpt-4" then
      (lookupTok MODEL_MAX_TOKENS "gpt-4").getD DEFAULT_MAX_TOKENS
    else if strContainsB model_name "gpt-3.5-turbo-16k" then
      (lookupTok MODEL_MAX_TOKENS "gpt-3.5-turbo-16k").getD DEFAULT_MAX_TOKENS
    else if strContainsB model_name "gpt-3.5-turbo" then
      (lookupTok MODEL_MAX_TOKENS "gpt-3.5-turbo").getD DEFAULT_MAX_TOKENS
    else if strContainsB model_name "o4-mini" then
      (lookupTok MODEL_MAX_TOKENS "o4-mini").getD DEFAULT_MAX_TOKENS
    else DEFAULT_MAX_TOKENS

/-- The substring rules of `get_model_max_tokens` in their source order,
with the value each rule returns. -/
def substrRules : List (String × Nat) :=
  [("gpt-4-turbo", 128000),
   ("gpt-4-32k", 32768),
   ("gpt-4", 8192),
   ("gpt-3.5-turbo-16k", 16384),
   ("gpt-3.5-turbo", 4096),
   ("o4-mini", 128000)]

/-- Value of the first substring rule matching `m`, default when none does. -/
def firstRuleValue (m : String) : Nat :=
  match substrRules.find? (fun r => strContainsB m r.1) with
  | some r => r.2
  | none => DEFAULT_MAX_TOKENS

/-- A filesystem: association list from relative paths to file contents. -/
abbrev FS := List (String × String)

def fsFind : FS → String → Option String
  | [], _ => none
  | (p, c) :: rest, q => if q = p then some c else fsFind rest q

def fsErase : FS → String → FS
  | [], _ => []
  | (p, c) :: rest, q => if p = q then fsErase rest q else (p, c) :: fsErase rest q

/-- Write (create or overwrite) a file. -/
def fsSet (fs : FS) (p c : String) : FS :=
  (p, c) :: fsErase fs p

/-- Generic splitter of a character list at separator positions. -/
def splitWhen (p : Char → Bool) : List Char → List (List Char)
  | [] => [[]]
  | c :: rest =>
    let r := splitWhen p rest
    if p c then [] :: r
    else
      match r with
      | [] => [[c]]
      | l :: ls => (c :: l) :: ls

/-- Modelled from the spec: the Path Safety Guard (§4.1) is not in the
source tree; messages follow the test suites.  It rejects the empty path, absolute paths, and `..` escapes; the
returned message does not yet carry the `"Error: "` rendering. -/
def pathError (p : String) : Option String :=
  if p = "" then some "Path cannot be empty."
  else if strStarts p "/" then
    some ("Absolute paths are not allowed: '" ++ p ++ "'")
  else if (splitWhen (fun c => c == '/') p.data).any
      (fun seg => seg == "..".data) then
    some ("Attempted file access outside of project root: '" ++ p ++ "'")
  else none

/-- One `SEARCH/REPLACE` edit block of the block-diff format. -/
structure EditBlock where
  start_line : Nat
  search_text : String
  replace_text : String
deriving DecidableEq, Repr

/-- Normalize `"\r\n"` sequences to `"\n"`. -/
def normalizeCRLF : List Char → List Char
  | [] => []
  | '\r' :: '\n' :: rest => '\n' :: normalizeCRLF rest
  | c :: rest => c :: normalizeCRLF rest

/-- Marker-line recognition, tolerant of surrounding whitespace: the line's
whitespace-separated words must be exactly the two marker words. -/
def isMarkerLine (line : String) (w1 w2 : String) : Bool :=
  ((splitWhen isWsChar line.data).filter (fun w => !w.isEmpty))
    == [w1.data, w2.data]

/-- Parse a `:start_line:N` marker line. -/
def startLineNum? (line : String) : Option Nat :=
  let t := trimChars line.data
  if ":start_line:".data.isPrefixOf t then
    let digits := t.drop 12
    if digits ≠ [] ∧ digits.all (fun c => c.isDigit) then
      some (digits.foldl (fun n c => n * 10 + (c.toNat - 48)) 0)
    else none
  else none

/-- State of the block-diff scanner. -/
inductive DiffSt
  | idle
  | wantLine
  | wantSep (n : Nat)
  | inSearch (n : Nat) (acc : List String)
  | inRepl (n : Nat) (search : List String) (acc : List String)
deriving DecidableEq

structure DiffScan where
  st : DiffSt
  blocks : List EditBlock
  bad : Bool
deriving DecidableEq

/-- Modelled from the spec: one scanner step of the missing block-diff
parser — split the document on the
delimiter tokens (whitespace-trimmed compare), extract `N`, capture the
search and replace texts. -/
def diffStep (s : DiffScan) (line : String) : DiffScan :=
  if s.bad then s
  else
    match s.st with
    | .idle =>
      if isMarkerLine line "<<<<<<<" "SEARCH" then { s with st := .wantLine }
      else s
    | .wantLine =>
      match startLineNum? line with
      | some n => { s with st := .wantSep n }
      | none => { s with bad := true }
    | .wantSep n =>
      if strTrim line == "-------" then { s with st := .inSearch n [] }
      else { s with bad := true }
    | .inSearch n acc =>
      if strTrim line == "=======" then { s with st := .inRepl n acc [] }
      else { s with st := .inSearch n (acc ++ [line]) }
    | .inRepl n search acc =>
      if isMarkerLine line ">>>>>>>" "REPLACE" then
        { st := .idle,
          blocks := s.blocks ++ [⟨n, joinLines search, joinLines acc⟩],
          bad := false }
      else { s with st := .inRepl n search (acc ++ [line]) }

/-- Scan a whole diff document into blocks in document order.  An empty
document gives zero blocks; a non-empty document that yields no block, or a
malformed block, is a format error. -/
def scanBlocks (diff : String) : Except String (List EditBlock) :=
  let ls := (splitWhen (fun c => c == '\n') (normalizeCRLF diff.data)).map
    String.mk
  let r := ls.foldl diffStep { st := .idle, blocks := [], bad := false }
  if r.bad then .error "Invalid diff format: malformed SEARCH/REPLACE block."
  else if r.st ≠ .idle then
    .error "Invalid diff format: unterminated SEARCH/REPLACE block."
  else if r.blocks.isEmpty ∧ diff ≠ "" then
    .error "Invalid diff format: no valid SEARCH/REPLACE blocks found."
  else .ok r.blocks

/-- Stable insertion of a block into a descending-sorted block list: the new
block (earlier in the document) goes in front of every block with a line
number not above its own. -/
def insBlock (b : EditBlock) : List EditBlock → List EditBlock
  | [] => [b]
  | x :: xs =>
    if x.start_line ≤ b.start_line then b :: x :: xs
    else x :: insBlock b xs

/-- Stable sort of the parsed blocks by `start_line`, descending. -/
def sortBlocksDesc : List EditBlock → List EditBlock
  | [] => []
  | b :: rest => insBlock b (sortBlocksDesc rest)

/-- Modelled from the spec: `parse_diff_blocks` (§4.2) is absent from the
source tree.  Scan the document, then sort the blocks by start line descending
(stable). -/
def parse_diff_blocks (diff : String) : Except String (List EditBlock) :=
  (scanBlocks diff).map sortBlocksDesc

/-- The lines denoted by a captured text: the empty capture denotes no
lines at all (not one empty line). -/
def textLines (s : String) : List String :=
  if s = "" then [] else strLines s

/-- Split a file's content into its line array and the flag recording
whether the content ended with a trailing line terminator. -/
def splitContent (content : String) : List String × Bool :=
  if content = "" then ([], false)
  else if strEnds content "\n" then
    (strLines (String.mk content.data.dropLast), true)
  else (strLines content, false)

/-- Rebuild a file's content from its line array, restoring the trailing
terminator convention. -/
def joinContent (lines : List String) (trail : Bool) : String :=
  joinLines lines ++ (if trail then "\n" else "")

/-- Modelled from the spec: apply a single block to the line array, failing
with a bounds error when the 1-based start line does not leave room for the
search lines, and with a match error when the file's slice differs from the
search text. -/
def applyOneBlock (lines : List String) (b : EditBlock) :
    Except String (List String) :=
  let idx := b.start_line - 1
  let searchLines := textLines b.search_text
  let replLines := textLines b.replace_text
  if b.start_line = 0 ∨ lines.length < idx + searchLines.length then
    .error ("Error: Failed to apply diff block at line "
      ++ toString b.start_line ++ ": start line is out of bounds for the file.")
  else if (lines.drop idx).take searchLines.length = searchLines then
    .ok (lines.take idx ++ replLines ++ lines.drop (idx + searchLines.length))
  else
    .error ("Error: Failed to apply diff block at line "
      ++ toString b.start_line
      ++ ": SEARCH content does not exactly match the file content.")

/-- Modelled from the spec: try every block in order, keeping the buffer
changes of the matching blocks so that the result reports every failed block
and every block that would have succeeded; results are
`(buffer, success notes, error messages)`. -/
def applyBlocks (lines : List String) : List EditBlock →
    List String × List String × List String
  | [] => (lines, [], [])
  | b :: rest =>
    match applyOneBlock lines b with
    | .ok newLines =>
      let r := applyBlocks newLines rest
      (r.1, ("Block at line " ++ toString b.start_line ++ " would apply.")
        :: r.2.1, r.2.2)
    | .error e =>
      let r := applyBlocks lines rest
      (r.1, r.2.1, e :: r.2.2)

/-- Modelled from the spec: the tool entry point `apply_diff_tool` is absent
from the source tree.  Validate the arguments (the spec does not fix the order of
the two required-argument checks; the `diff` check is modelled first), run
the path guard, parse, apply all blocks, and write back only when every
block matched. -/
def apply_diff_tool (fs : FS) (path diff : String) : String × FS :=
  if diff = "" then ("Error: 'diff' argument is required.", fs)
  else if path = "" then ("Error: 'path' argument is required.", fs)
  else
    match pathError path with
    | some e => ("Error: " ++ e, fs)
    | none =>
      match parse_diff_blocks diff with
      | .error e => ("Error: " ++ e, fs)
      | .ok blocks =>
        match fsFind fs path with
        | none => ("Error: File not found: '" ++ path ++ "'", fs)
        | some content =>
          let buf := splitContent content
          let r := applyBlocks buf.1 blocks
          if r.2.2.isEmpty then
            ("Successfully applied " ++ toString blocks.length
              ++ " diff block(s) to '" ++ path ++ "'.",
             fsSet fs path (joinContent r.1 buf.2))
          else (joinLines (r.2.2 ++ r.2.1), fs)

/-- Whether a call of `apply_diff_tool` fails (mirrors the branch structure
of `apply_diff_tool`: argument errors, guard errors, parse errors, a missing
file, or any failed block). -/
def diffCallFails (fs : FS) (path diff : String) : Bool :=
  if diff = "" then true
  else if path = "" then true
  else
    match pathError path with
    | some _ => true
    | none =>
      match parse_diff_blocks diff with
      | .error _ => true
      | .ok blocks =>
        match fsFind fs path with
        | none => true
        | some content =>
          let buf := splitContent content
          let r := applyBlocks buf.1 blocks
          !r.2.2.isEmpty

/-- One contiguous context/delete/insert run of an Update operation. -/
structure Hunk where
  anchor_index : Nat
  context_before : List String
  del_lines : List String
  ins_lines : List String
  is_end_of_file : Bool
deriving DecidableEq, Repr

/-- A parsed patch operation. -/
inductive POp
  | add (path : String) (lines : List String)
  | del (path : String)
  | upd (path : String) (mv : Option String) (hunks : List Hunk)
deriving DecidableEq, Repr

/-- Decode the escaped two-character sequence `\n` to a newline. -/
def decodeNLChars : List Char → List Char
  | [] => []
  | '\\' :: 'n' :: rest => '\n' :: decodeNLChars rest
  | c :: rest => c :: decodeNLChars rest

def decodeEscapes (s : String) : String :=
  String.mk (decodeNLChars s.data)

def digitsVal (ds : List Char) : Nat :=
  ds.foldl (fun n c => n * 10 + (c.toNat - 48)) 0

/-- Best-effort anchor hint from a `@@ -a,b +c,d @@` header (0 otherwise). -/
def hunkAnchor (line : String) : Nat :=
  match trimChars (strDrop line 2).data with
  | '-' :: rest =>
    let ds := rest.takeWhile (fun c => c.isDigit)
    if ds = [] then 0 else digitsVal ds
  | _ => 0

/-- A fresh hunk opened by a header line. -/
def newHunk (anchor : Nat) : Hunk :=
  { anchor_index := anchor, context_before := [], del_lines := [],
    ins_lines := [], is_end_of_file := false }

/-- Parser state: outside any operation, inside an Add body, or inside an
Update body (with the hunk being built, if any). -/
inductive PSt
  | idle
  | inAdd (path : String) (lines : List String)
  | inUpd (path : String) (mv : Option String) (hunks : List Hunk)
      (cur : Option Hunk)
deriving DecidableEq

structure PScan where
  st : PSt
  ops : List POp
  err : Option String
deriving DecidableEq

/-- Close the hunk being built (marking it end-of-file when requested) and
produce the finished Update operation. -/
def closeUpd (p : String) (mv : Option String) (hs : List Hunk)
    (cur : Option Hunk) (eof : Bool) : POp :=
  match cur with
  | some h => .upd p mv (hs ++ [{ h with is_end_of_file := eof }])
  | none => .upd p mv hs

/-- Append the operation currently being built, if any. -/
def flushSt (st : PSt) (ops : List POp) : List POp :=
  match st with
  | .idle => ops
  | .inAdd p ls => ops ++ [.add p ls]
  | .inUpd p mv hs cur => ops ++ [closeUpd p mv hs cur false]

/-- One body line inside an Update: `@@` opens a hunk; space-, `-`- and
`+`-lines extend the current run (a context line after deletions or
insertions, or a deletion after insertions, starts the next run); any other
non-empty, non-marker line is treated as additional context. -/
def updLine (p : String) (mv : Option String) (hs : List Hunk)
    (cur : Option Hunk) (line : String) : PSt :=
  if strStarts line "@@" then
    match cur with
    | some h => .inUpd p mv (hs ++ [h]) (some (newHunk (hunkAnchor line)))
    | none => .inUpd p mv hs (some (newHunk (hunkAnchor line)))
  else if strStarts line " " then
    let content := strDrop line 1
    match cur with
    | none => .inUpd p mv hs (some { newHunk 0 with context_before := [content] })
    | some h =>
      if h.del_lines = [] ∧ h.ins_lines = [] then
        .inUpd p mv hs (some { h with context_before := h.context_before ++ [content] })
      else
        .inUpd p mv (hs ++ [h]) (some { newHunk 0 with context_before := [content] })
  else if strStarts line "-" then
    let content := decodeEscapes (strDrop line 1)
    match cur with
    | none => .inUpd p mv hs (some { newHunk 0 with del_lines := [content] })
    | some h =>
      if h.ins_lines = [] then
        .inUpd p mv hs (some { h with del_lines := h.del_lines ++ [content] })
      else
        .inUpd p mv (hs ++ [h]) (some { newHunk 0 with del_lines := [content] })
  else if strStarts line "+" then
    let content := decodeEscapes (strDrop line 1)
    match cur with
    | none => .inUpd p mv hs (some { newHunk 0 with ins_lines := [content] })
    | some h => .inUpd p mv hs (some { h with ins_lines := h.ins_lines ++ [content] })
  else if strTrim line == "" then
    .inUpd p mv hs cur
  else
    match cur with
    | none => .inUpd p mv hs (some { newHunk 0 with context_before := [line] })
    | some h =>
      if h.del_lines = [] ∧ h.ins_lines = [] then
        .inUpd p mv hs (some { h with context_before := h.context_before ++ [line] })
      else
        .inUpd p mv (hs ++ [h]) (some { newHunk 0 with context_before := [line] })

/-- One step of the patch-body state machine. -/
def patchStep (s : PScan) (line : String) : PScan :=
  if s.err.isSome then s
  else if strStarts line "*** Add File: " then
    { st := .inAdd (strTrim (strDrop line 14)) [],
      ops := flushSt s.st s.ops, err := none }
  else if strStarts line "*** Delete File: " then
    { st := .idle,
      ops := flushSt s.st s.ops ++ [.del (strTrim (strDrop line 17))],
      err := none }
  else if strStarts line "*** Update File: " then
    { st := .inUpd (strTrim (strDrop line 17)) none [] none,
      ops := flushSt s.st s.ops, err := none }
  else if strStarts line "*** Move to: " then
    match s.st with
    | .inUpd p _mv hs cur =>
      { s with st := .inUpd p (some (strTrim (strDrop line 13))) hs cur }
    | .idle =>
      { s with err := some ("Unexpected line outside operation block: '"
          ++ line ++ "'") }
    | _ => s
  else if strStarts line "*** End of File" then
    match s.st with
    | .inAdd p ls => { st := .idle, ops := s.ops ++ [.add p ls], err := none }
    | .inUpd p mv hs cur =>
      { st := .idle, ops := s.ops ++ [closeUpd p mv hs cur true], err := none }
    | .idle => s
  else
    match s.st with
    | .idle =>
      if strTrim line == "" then s
      else
        { s with err := some ("Unexpected line outside operation block: '"
            ++ line ++ "'") }
    | .inAdd p ls =>
      if strStarts line "+" then
        { s with st := .inAdd p (ls ++ [decodeEscapes (strDrop line 1)]) }
      else s
    | .inUpd p mv hs cur => { s with st := updLine p mv hs cur line }

/-- Drop trailing blank lines and the final `*** End Patch` marker line. -/
def stripEndMarker (ls : List String) : List String :=
  match ls.reverse.dropWhile (fun l => strTrim l == "") with
  | l :: rest => if strTrim l == "*** End Patch" then rest.reverse else ls
  | [] => ls

/-- Whether an operation is an Update of path `p`. -/
def updFor (p : String) (op : POp) : Bool :=
  match op with
  | .upd q _ _ => q == p
  | _ => false

/-- Merge a later Update into an earlier one for the same path: hunks are
concatenated, the earlier `move_to` is retained unless the later one sets
it. -/
def extendUpd (p : String) (mv : Option String) (hs : List Hunk) (op : POp) :
    POp :=
  match op with
  | .upd q mv0 hs0 =>
    if q == p then
      .upd q (match mv with | some d => some d | none => mv0) (hs0 ++ hs)
    else op
  | _ => op

def addOpMerged (acc : List POp) (op : POp) : List POp :=
  match op with
  | .upd p mv hs =>
    if acc.any (updFor p) then acc.map (extendUpd p mv hs)
    else acc ++ [op]
  | _ => acc ++ [op]

/-- Merge every group of Update operations for one path into a single
operation, in document order. -/
def mergeUpdates (ops : List POp) : List POp :=
  ops.foldl addOpMerged []

/-- The document-order operation list: run the body state machine on the
lines between the markers. -/
def parse_patch_raw (patch : String) : Except String (List POp) :=
  let body := stripEndMarker ((strLines patch).drop 1)
  let r := body.foldl patchStep { st := .idle, ops := [], err := none }
  match r.err with
  | some e => .error e
  | none => .ok (flushSt r.st r.ops)

/-- Modelled from the spec: `_parse_patch_text` is absent from the source
tree.  Run the body state machine on the lines between the markers, then
merge Updates targeting the same path. -/
def parse_patch_text (patch : String) : Except String (List POp) :=
  (parse_patch_raw patch).map mergeUpdates

/-- Number of Update operations for path `p`. -/
def countU (p : String) (ops : List POp) : Nat :=
  (ops.filter (updFor p)).length

/-- The hunks an operation contributes to path `p`. -/
def opHunks (p : String) (op : POp) : List Hunk :=
  match op with
  | .upd q _ hs => if q == p then hs else []
  | _ => []

/-- All hunks for path `p`, concatenated in operation order. -/
def hunksFor (p : String) : List POp → List Hunk
  | [] => []
  | op :: rest => opHunks p op ++ hunksFor p rest

/-- Exact span match of `pat` at index `i` of `lines`. -/
def sliceMatches (lines pat : List String) (i : Nat) : Bool :=
  decide ((lines.drop i).take pat.length = pat)

/-- Whitespace-normalized span match (leading/trailing space and tab
differences ignored). -/
def sliceMatchesNorm (lines pat : List String) (i : Nat) : Bool :=
  decide (((lines.drop i).take pat.length).map strTrim = pat.map strTrim)

/-- First index at or after `start` where `pat` matches exactly. -/
def findSpan (lines pat : List String) (start : Nat) : Option Nat :=
  (List.range' start (lines.length + 1 - start)).find?
    (fun i => sliceMatches lines pat i)

/-- First index at or after `start` where `pat` matches after whitespace
normalization. -/
def findSpanNorm (lines pat : List String) (start : Nat) : Option Nat :=
  (List.range' start (lines.length + 1 - start)).find?
    (fun i => sliceMatchesNorm lines pat i)

/-- Replace the span of length `n` at `i` with `repl`. -/
def spliceAt (lines repl : List String) (i n : Nat) : List String :=
  lines.take i ++ repl ++ lines.drop (i + n)

/-- Modelled from the spec: the state is `(buffer, cursor, fuzzy count)`;
each hunk searches for its context+deletion span starting at the cursor,
exactly first, then whitespace-normalized, and otherwise is applied at the
best available approximate position (the cursor) instead of aborting. -/
def applyHunkStep (st : List String × Nat × Nat) (h : Hunk) :
    List String × Nat × Nat :=
  let lines := st.1
  let cursor := st.2.1
  let fuzz := st.2.2
  let span := h.context_before ++ h.del_lines
  let repl := h.context_before ++ h.ins_lines
  match findSpan lines span cursor with
  | some i => (spliceAt lines repl i span.length, i + repl.length, fuzz)
  | none =>
    match findSpanNorm lines span cursor with
    | some i => (spliceAt lines repl i span.length, i + repl.length, fuzz + 1)
    | none =>
      let i := min cursor lines.length
      (spliceAt lines repl i span.length, i + repl.length, fuzz + 1)

/-- Apply all hunks in order; result is the new buffer and the number of
hunks that needed a non-exact (fuzzy or approximate) position. -/
def applyHunks (lines : List String) (hs : List Hunk) : List String × Nat :=
  let r := hs.foldl applyHunkStep (lines, 0, 0)
  (r.1, r.2.2)

/-- Modelled from the spec: rebuild the updated content.  The join carries
any explicit terminator inserted by a hunk; otherwise the original
trailing-terminator convention is restored unless a deletion line carried an
explicit terminator (removing it). -/
def updateContent (content : String) (hunks : List Hunk) : String × Nat :=
  let buf := splitContent content
  let r := applyHunks buf.1 hunks
  let f0 := joinLines r.1
  let keepTrail := buf.2
    && !(hunks.any (fun h => h.del_lines.any (fun l => strEnds l "\n")))
  if strEnds f0 "\n" then (f0, r.2)
  else if keepTrail then (f0 ++ "\n", r.2)
  else (f0, r.2)

/-- Per-operation status: a success/info line or an error line. -/
inductive OpStatus
  | ok (msg : String)
  | err (msg : String)
deriving DecidableEq, Repr

def OpStatus.render : OpStatus → String
  | .ok m => m
  | .err m => "Error: " ++ m

def OpStatus.isErr : OpStatus → Bool
  | .ok _ => false
  | .err _ => true

/-- Caveat added to an Update status when fuzzy matching was needed. -/
def renderFuzz (n : Nat) : String :=
  if n = 0 then "" else " (applied with fuzzy matching)"

/-- Modelled from the spec: the Hunk Matcher/Applier (§4.5) is absent from
the source tree; apply one operation to the filesystem.
Add fails on an existing path; Delete of a missing path is an informational
no-op; Update loads the file, applies the hunks tolerantly and writes in
place, or to `move_to` when set and free. -/
def applyOp (fs : FS) : POp → OpStatus × FS
  | .add p ls =>
    match pathError p with
    | some e => (.err e, fs)
    | none =>
      match fsFind fs p with
      | some _ => (.err ("Cannot add file '" ++ p ++ "': path already exists."), fs)
      | none => (.ok ("Created file: " ++ p), fsSet fs p (joinLines ls))
  | .del p =>
    match pathError p with
    | some e => (.err e, fs)
    | none =>
      match fsFind fs p with
      | none => (.ok ("Info: File to delete not found: " ++ p), fs)
      | some _ => (.ok ("Deleted file: " ++ p), fsErase fs p)
  | .upd p mv hs =>
    match pathError p with
    | some e => (.err e, fs)
    | none =>
      match fsFind fs p with
      | none => (.err ("File to update not found: " ++ p), fs)
      | some content =>
        let r := updateContent content hs
        match mv with
        | none => (.ok ("Updated file: " ++ p ++ renderFuzz r.2), fsSet fs p r.1)
        | some dest =>
          match pathError dest with
          | some e => (.err e, fs)
          | none =>
            match fsFind fs dest with
            | some _ =>
              (.err ("Cannot move '" ++ p ++ "' to '" ++ dest
                ++ "': destination already exists."), fs)
            | none =>
              (.ok ("Updated and moved '" ++ p ++ "' to '" ++ dest ++ "'"
                ++ renderFuzz r.2), fsSet (fsErase fs p) dest r.1)

/-- Modelled from the spec: the Transaction Coordinator (§4.6) is absent
from the source tree; apply operations in document order, one
status per operation, no rollback across operations. -/
def applyOps (fs : FS) : List POp → List OpStatus × FS
  | [] => ([], fs)
  | op :: rest =>
    let r := applyOp fs op
    let r2 := applyOps r.2 rest
    (r.1 :: r2.1, r2.2)

/-- Structured result of a whole `apply_patch` call: argument and format
checks, parse, then the operation sequence. -/
def apply_patch_core (fs : FS) (patch : String) : List OpStatus × FS :=
  if patch = "" then ([.err "'patch_text' argument is required."], fs)
  else if !(strStarts patch "*** Begin Patch") then
    ([.err "Invalid patch format. Must start with '*** Begin Patch'."], fs)
  else if !(strEnds (strTrim patch) "*** End Patch") then
    ([.err "Invalid patch format. Must end with '*** End Patch'."], fs)
  else
    match parse_patch_text patch with
    | .error e => ([.err e], fs)
    | .ok [] => ([.ok "Patch contained no operations."], fs)
    | .ok ops => applyOps fs ops

/-- Modelled from the spec: the tool entry point `apply_patch` is absent
from the source tree.  Render the per-operation statuses as the joined status text. -/
def apply_patch (fs : FS) (patch : String) : String × FS :=
  let r := apply_patch_core fs patch
  (joinLines (r.1.map OpStatus.render), r.2)

/-- Whether an `apply_patch` call fails: some status line is an error line
(§4.6: presence of any `Error:` line signals overall failure). -/
def patchFails (fs : FS) (patch : String) : Bool :=
  (apply_patch_core fs patch).1.any OpStatus.isErr

/-- Operation-paths free of the `"Error"` token. -/
def opErrFree (op : POp) : Prop :=
  match op with
  | .add q _ => ¬ containsTok q "Error"
  | .del q => ¬ containsTok q "Error"
  | .upd q mv _ =>
    ¬ containsTok q "Error" ∧
    (match mv with
     | some d => ¬ containsTok d "Error"
     | none => True)

/-! ## Theorems -/

/-- An occurrence of `t` inside `a ++ b` lies inside `a`, inside `b`, or
crosses the boundary, in which case a nonempty proper head of `t` ends `a`
and the matching tail of `t` starts `b`. -/
theorem tok_split_of_append {α : Type} {t a b : List α} (h : t <:+: a ++ b) :
    t <:+: a ∨ t <:+: b ∨
      ∃ k, 0 < k ∧ k < t.length ∧ t.take k <:+ a ∧ t.drop k <+: b := by
  obtain ⟨s, u, hsu⟩ := h
  have htk : (s ++ t ++ u).take a.length = a := by
    rw [hsu]; exact List.take_left a b
  have hdr : (s ++ t ++ u).drop a.length = b := by
    rw [hsu]; exact List.drop_left a b
  rw [List.take_append_eq_append_take, List.take_append_eq_append_take] at htk
  rw [List.drop_append_eq_append_drop, List.drop_append_eq_append_drop] at hdr
  rcases le_or_lt (s.length + t.length) a.length with hle | hgt
  · left
    rw [List.take_of_length_le (by omega), List.take_of_length_le (by omega)] at htk
    exact ⟨s, u.take (a.length - (s ++ t).length), htk⟩
  · rcases le_or_lt a.length s.length with hge | hlt
    · right; left
      have hz1 : a.length - s.length = 0 := by omega
      have hz2 : a.length - (s ++ t).length = 0 := by
        simp only [List.length_append]; omega
      rw [hz1, hz2, List.drop_zero, List.drop_zero] at hdr
      exact ⟨s.drop a.length, u, hdr⟩
    · right; right
      refine ⟨a.length - s.length, by omega, by omega, ?_, ?_⟩
      · have hz2 : a.length - (s ++ t).length = 0 := by
          simp only [List.length_append]; omega
        rw [List.take_of_length_le (by omega), hz2, List.take_zero,
          List.append_nil] at htk
        exact ⟨s, htk⟩
      · have hz2 : a.length - (s ++ t).length = 0 := by
          simp only [List.length_append]; omega
        rw [List.drop_eq_nil_of_le (by omega), hz2, List.drop_zero,
          List.nil_append] at hdr
        exact ⟨u, hdr⟩

/-- The token `t` does not occur in `a ++ b` when it occurs in neither part
and no tail of `t` can start `b` (killing the boundary-crossing case). -/
theorem tok_not_in_append_right {α : Type} {t a b : List α}
    (ha : ¬ t <:+: a) (hb : ¬ t <:+: b)
    (hk : ∀ k, k < t.length → 0 < k → ¬ t.drop k <+: b) :
    ¬ t <:+: a ++ b := by
  intro h
  rcases tok_split_of_append h with h1 | h1 | ⟨k, hk0, hkl, _, h3⟩
  · exact ha h1
  · exact hb h1
  · exact hk k hkl hk0 h3

/-- The token `t` does not occur in `a ++ b` when it occurs in neither part
and no head of `t` can end `a` (killing the boundary-crossing case). -/
theorem tok_not_in_append_left {α : Type} {t a b : List α}
    (ha : ¬ t <:+: a) (hb : ¬ t <:+: b)
    (hk : ∀ k, k < t.length → 0 < k → ¬ t.take k <:+ a) :
    ¬ t <:+: a ++ b := by
  intro h
  rcases tok_split_of_append h with h1 | h1 | ⟨k, hk0, hkl, h2, _⟩
  · exact ha h1
  · exact hb h1
  · exact hk k hkl hk0 h2

theorem tok_in_append_left {α : Type} {t a : List α} (b : List α) (h : t <:+: a) :
    t <:+: a ++ b := by
  obtain ⟨s, u, rfl⟩ := h
  exact ⟨s, u ++ b, by simp⟩

theorem tok_in_append_right {α : Type} {t b : List α} (a : List α) (h : t <:+: b) :
    t <:+: a ++ b := by
  obtain ⟨s, u, rfl⟩ := h
  exact ⟨a ++ s, u, by simp⟩

/-- A nonempty list that starts a `c :: xs` begins with `c`. -/
theorem head_of_pre_cons {t : List Char} {c : Char} {xs : List Char}
    (h : t <+: c :: xs) (hne : t ≠ []) : t.head? = some c := by
  cases t with
  | nil => exact absurd rfl hne
  | cons y ys =>
    rw [List.cons_prefix_cons] at h
    simp [h.1]

/-- The token `"Error"` cannot start at a newline character. -/
theorem errTok_not_pre_nl {k : Nat} (h5 : k < 5) (h0 : 0 < k) {xs : List Char} :
    ¬ ("Error".data.drop k <+: '\n' :: xs) := by
  intro h
  have hne : "Error".data.drop k ≠ [] := by
    interval_cases k <;> decide
  have hh := head_of_pre_cons h hne
  revert hh
  interval_cases k <;> decide

/-- Members of a line list occur in the joined text. -/
theorem tok_in_join {t : String} : ∀ {l : List String} {s : String}, s ∈ l →
    containsTok s t → containsTok (joinLines l) t
  | [], _, hm, _ => absurd hm (by simp)
  | [x], s, hm, h => by
    have hsx : s = x := by simpa using hm
    subst hsx
    exact h
  | x :: y :: ys, s, hm, h => by
    rcases List.mem_cons.1 hm with rfl | hm
    · show t.data <:+: (s ++ "\n" ++ joinLines (y :: ys)).data
      rw [String.data_append, String.data_append]
      exact tok_in_append_left _ (tok_in_append_left _ h)
    · show t.data <:+: (x ++ "\n" ++ joinLines (y :: ys)).data
      rw [String.data_append]
      exact tok_in_append_right _ (tok_in_join hm h)

/-- If no line contains `"Error"`, neither does the joined text. -/
theorem errFree_join : ∀ {l : List String},
    (∀ s ∈ l, ¬ containsTok s "Error") → ¬ containsTok (joinLines l) "Error"
  | [], _ => by decide
  | [x], h => h x (by simp)
  | x :: y :: ys, h => by
    show ¬ "Error".data <:+: (x ++ "\n" ++ joinLines (y :: ys)).data
    rw [String.data_append, String.data_append, List.append_assoc]
    have hnl : "\n".data ++ (joinLines (y :: ys)).data
        = '\n' :: (joinLines (y :: ys)).data := rfl
    rw [hnl]
    refine tok_not_in_append_right (h x (by simp)) ?_ ?_
    · intro hcon
      rcases List.infix_cons_iff.1 hcon with hpre | htl
      · exact absurd (head_of_pre_cons hpre (by decide)) (by decide)
      · exact errFree_join (fun s hs => h s (by simp [hs])) htl
    · intro k hk5 hk0
      exact errTok_not_pre_nl hk5 hk0

/-- Appending a variable part to an `"Error"`-free literal whose tail cannot
begin the token keeps the result `"Error"`-free. -/
theorem errFree_lit_append (lit : String) {p : String}
    (hl : ¬ containsTok lit "Error")
    (hcross : ∀ k, k < 5 → 0 < k → ¬ ("Error".data.take k <:+ lit.data))
    (hp : ¬ containsTok p "Error") : ¬ containsTok (lit ++ p) "Error" := by
  show ¬ "Error".data <:+: (lit ++ p).data
  rw [String.data_append]
  exact tok_not_in_append_left hl hp hcross

/-- Appending an `"Error"`-free literal that no token tail can begin keeps
the result `"Error"`-free. -/
theorem errFree_append_lit (lit : String) {p : String}
    (hl : ¬ containsTok lit "Error")
    (hcross : ∀ k, k < 5 → 0 < k → ¬ ("Error".data.drop k <+: lit.data))
    (hp : ¬ containsTok p "Error") : ¬ containsTok (p ++ lit) "Error" := by
  show ¬ "Error".data <:+: (p ++ lit).data
  rw [String.data_append]
  exact tok_not_in_append_right hp hl hcross

theorem lookupTok_pos {l : List (String × Nat)} (hall : ∀ p ∈ l, 0 < p.2)
    {m : String} {v : Nat} (h : lookupTok l m = some v) : 0 < v := by
  induction l with
  | nil => simp [lookupTok] at h
  | cons p rest ih =>
    obtain ⟨k, w⟩ := p
    rw [lookupTok] at h
    by_cases hm : m = k
    · rw [if_pos hm] at h
      cases h
      exact hall (k, v) (by simp)
    · rw [if_neg hm] at h
      exact ih (fun q hq => hall q (by simp [hq])) h

/-- Claim C9: `get_model_max_tokens` is total with a positive result for every
model name; an exact key of `MODEL_MAX_TOKENS` returns that key's value;
otherwise the first matching substring rule, in the fixed source order,
determines the result (in particular a name containing `"gpt-4-turbo"` yields
`128000` even though it also contains `"gpt-4"`); a name matching no rule
returns the default `4096`. -/
theorem claim_C9_model_max_tokens (m : String) :
    0 < get_model_max_tokens m ∧
    (∀ v, lookupTok MODEL_MAX_TOKENS m = some v → get_model_max_tokens m = v) ∧
    (lookupTok MODEL_MAX_TOKENS m = none →
      get_model_max_tokens m = firstRuleValue m) ∧
    (lookupTok MODEL_MAX_TOKENS m = none →
      strContainsB m "gpt-4-turbo" = true → get_model_max_tokens m = 128000) ∧
    ((∀ r ∈ substrRules, strContainsB m r.1 = false) →
      get_model_max_tokens m = DEFAULT_MAX_TOKENS ∨
        ∃ v, lookupTok MODEL_MAX_TOKENS m = some v ∧
          get_model_max_tokens m = v) := by
  have hrule : lookupTok MODEL_MAX_TOKENS m = none →
      get_model_max_tokens m = firstRuleValue m := by
    intro hl
    unfold get_model_max_tokens firstRuleValue substrRules
    rw [hl]
    by_cases h1 : strContainsB m "gpt-4-turbo" = true
    · rw [if_pos h1]; simp only [List.find?, h1]; decide
    · rw [if_neg h1]
      rw [Bool.not_eq_true] at h1
      by_cases h2 : strContainsB m "gpt-4-32k" = true
      · rw [if_pos h2]; simp only [List.find?, h1, h2]; decide
      · rw [if_neg h2]
        rw [Bool.not_eq_true] at h2
        by_cases h3 : strContainsB m "gpt-4" = true
        · rw [if_pos h3]; simp only [List.find?, h1, h2, h3]; decide
        · rw [if_neg h3]
          rw [Bool.not_eq_true] at h3
          by_cases h4 : strContainsB m "gpt-3.5-turbo-16k" = true
          · rw [if_pos h4]; simp only [List.find?, h1, h2, h3, h4]; decide
          · rw [if_neg h4]
            rw [Bool.not_eq_true] at h4
            by_cases h5 : strContainsB m "gpt-3.5-turbo" = true
            · rw [if_pos h5]; simp only [List.find?, h1, h2, h3, h4, h5]; decide
            · rw [if_neg h5]
              rw [Bool.not_eq_true] at h5
              by_cases h6 : strContainsB m "o4-mini" = true
              · rw [if_pos h6]
                simp only [List.find?, h1, h2, h3, h4, h5, h6]
                decide
              · rw [if_neg h6]
                rw [Bool.not_eq_true] at h6
                simp only [List.find?, h1, h2, h3, h4, h5, h6]
  have hexact : ∀ v, lookupTok MODEL_MAX_TOKENS m = some v →
      get_model_max_tokens m = v := by
    intro v hv
    unfold get_model_max_tokens
    rw [hv]
  have hpos : 0 < get_model_max_tokens m := by
    cases hl : lookupTok MODEL_MAX_TOKENS m with
    | some v =>
      rw [hexact v hl]
      exact lookupTok_pos (by decide) hl
    | none =>
      rw [hrule hl]
      unfold firstRuleValue substrRules
      cases hf : List.find? (fun r => strContainsB m r.1)
          [("gpt-4-turbo", 128000), ("gpt-4-32k", 32768), ("gpt-4", 8192),
           ("gpt-3.5-turbo-16k", 16384), ("gpt-3.5-turbo", 4096),
           ("o4-mini", 128000)] with
      | some r =>
        have hmem := List.mem_of_find?_eq_some hf
        have hval : 0 < r.2 := by fin_cases hmem <;> decide
        exact hval
      | none => decide
  refine ⟨hpos, hexact, hrule, ?_, ?_⟩
  · intro hl h1
    rw [hrule hl]
    unfold firstRuleValue substrRules
    simp only [List.find?, h1]
  · intro hnone
    cases hl : lookupTok MODEL_MAX_TOKENS m with
    | some v => exact Or.inr ⟨v, rfl, hexact v hl⟩
    | none =>
      left
      rw [hrule hl]
      unfold firstRuleValue substrRules
      have e1 := hnone ("gpt-4-turbo", 128000) (by decide)
      have e2 := hnone ("gpt-4-32k", 32768) (by decide)
      have e3 := hnone ("gpt-4", 8192) (by decide)
      have e4 := hnone ("gpt-3.5-turbo-16k", 16384) (by decide)
      have e5 := hnone ("gpt-3.5-turbo", 4096) (by decide)
      have e6 := hnone ("o4-mini", 128000) (by decide)
      simp only [List.find?, e1, e2, e3, e4, e5, e6]

theorem claim_C9_model_max_tokens_witness :
    lookupTok MODEL_MAX_TOKENS "my-gpt-4-turbo-preview" = none ∧
    strContainsB "my-gpt-4-turbo-preview" "gpt-4-turbo" = true ∧
    get_model_max_tokens "my-gpt-4-turbo-preview" = 128000 :=
  ⟨by decide, by decide,
    (claim_C9_model_max_tokens "my-gpt-4-turbo-preview").2.2.2.1
      (by decide) (by decide)⟩

theorem fsFind_fsErase (fs : FS) (p q : String) :
    fsFind (fsErase fs p) q = if q = p then none else fsFind fs q := by
  induction fs with
  | nil => simp [fsErase, fsFind]
  | cons e rest ih =>
    obtain ⟨r, c⟩ := e
    by_cases hrp : r = p
    · subst hrp
      by_cases hq : q = r
      · subst hq
        simp [fsErase, fsFind, ih]
      · simp [fsErase, fsFind, hq, ih]
    · by_cases hq : q = r
      · subst hq
        simp [fsErase, fsFind, hrp, Ne.symm hrp]
      · simp [fsErase, fsFind, hrp, hq, ih]

theorem fsFind_fsSet_self (fs : FS) (p c : String) :
    fsFind (fsSet fs p c) p = some c := by
  simp [fsSet, fsFind]

theorem fsFind_fsSet_other (fs : FS) (p c q : String) (h : q ≠ p) :
    fsFind (fsSet fs p c) q = fsFind fs q := by
  simp [fsSet, fsFind, h, fsFind_fsErase]

/-- Both block-failure messages contain the token `"Failed"`. -/
theorem failed_in_block_msg (n : Nat) (tail : String) :
    containsTok ("Error: Failed to apply diff block at line "
      ++ toString n ++ tail) "Failed" := by
  show "Failed".data <:+:
    (("Error: Failed to apply diff block at line " ++ toString n)
      ++ tail).data
  rw [String.data_append, String.data_append]
  exact tok_in_append_left _ (tok_in_append_left _ (by decide))

/-- Every error collected by `applyBlocks` contains `"Failed"`. -/
theorem applyBlocks_err_failed :
    ∀ (bs : List EditBlock) (lines : List String),
      ∀ e ∈ (applyBlocks lines bs).2.2, containsTok e "Failed"
  | [], _, e, he => absurd he (by simp [applyBlocks])
  | b :: rest, lines, e, he => by
    rw [applyBlocks] at he
    cases hb : applyOneBlock lines b with
    | ok newLines =>
      rw [hb] at he
      simp only at he
      exact applyBlocks_err_failed rest newLines e he
    | error msg =>
      rw [hb] at he
      simp only [List.mem_cons] at he
      rcases he with rfl | he
      · have hmsg : applyOneBlock lines b = .error e := hb
        unfold applyOneBlock at hmsg
        dsimp only at hmsg
        split at hmsg
        · cases hmsg
          exact failed_in_block_msg _ _
        · split at hmsg
          · cases hmsg
          · cases hmsg
            exact failed_in_block_msg _ _
      · exact applyBlocks_err_failed rest lines e he

/-- Claim C10: at the `apply_diff_tool` entry point an empty `diff` argument
is rejected before parsing: for every filesystem and every path the call
returns the error status naming the required `diff` argument and leaves the
filesystem (hence the target file) untouched — even though
`parse_diff_blocks` maps the empty document to zero blocks without error. -/
theorem claim_C10_empty_diff_rejected (fs : FS) (path : String) :
    apply_diff_tool fs path "" = ("Error: 'diff' argument is required.", fs) ∧
    containsTok "Error: 'diff' argument is required."
      "'diff' argument is required" ∧
    parse_diff_blocks "" = .ok [] :=
  ⟨rfl, by decide, rfl⟩

/-- Claim C1: atomicity of the Line-Indexed Diff Applier.  For every target
file and every parsed block list, if any block fails (mismatch or
out-of-bounds), no block is written: the filesystem — and hence the file's
content — is returned exactly unchanged and the status reports the failure
(containing `"Failed"`); only when every block matches is the modified
buffer written back. -/
theorem claim_C1_diff_atomicity (fs : FS) (path diff content : String)
    (blocks : List EditBlock)
    (hdiff : diff ≠ "") (hpath : path ≠ "")
    (hguard : pathError path = none)
    (hparse : parse_diff_blocks diff = .ok blocks)
    (hfile : fsFind fs path = some content) :
    ((applyBlocks (splitContent content).1 blocks).2.2 ≠ [] →
      apply_diff_tool fs path diff
        = (joinLines ((applyBlocks (splitContent content).1 blocks).2.2
            ++ (applyBlocks (splitContent content).1 blocks).2.1), fs) ∧
      containsTok (apply_diff_tool fs path diff).1 "Failed") ∧
    ((applyBlocks (splitContent content).1 blocks).2.2 = [] →
      apply_diff_tool fs path diff
        = ("Successfully applied " ++ toString blocks.length
            ++ " diff block(s) to '" ++ path ++ "'.",
          fsSet fs path
            (joinContent (applyBlocks (splitContent content).1 blocks).1
              (splitContent content).2))) := by
  have hcore : apply_diff_tool fs path diff
      = (if (applyBlocks (splitContent content).1 blocks).2.2.isEmpty then
          ("Successfully applied " ++ toString blocks.length
            ++ " diff block(s) to '" ++ path ++ "'.",
           fsSet fs path
             (joinContent (applyBlocks (splitContent content).1 blocks).1
               (splitContent content).2))
        else
          (joinLines ((applyBlocks (splitContent content).1 blocks).2.2
            ++ (applyBlocks (splitContent content).1 blocks).2.1), fs)) := by
    unfold apply_diff_tool
    rw [if_neg hdiff, if_neg hpath, hguard, hparse, hfile]
  constructor
  · intro hne
    have hE : (applyBlocks (splitContent content).1 blocks).2.2.isEmpty
        = false := by
      cases hc : (applyBlocks (splitContent content).1 blocks).2.2 with
      | nil => exact absurd hc hne
      | cons x xs => rfl
    rw [hcore, if_neg (by simp [hE])]
    refine ⟨rfl, ?_⟩
    cases hc : (applyBlocks (splitContent content).1 blocks).2.2 with
    | nil => exact absurd hc hne
    | cons x xs =>
      have hx : containsTok x "Failed" :=
        applyBlocks_err_failed blocks (splitContent content).1 x
          (by rw [hc]; exact List.mem_cons_self x xs)
      exact tok_in_join (by simp) hx
  · intro heq
    rw [hcore, if_pos (by simp [heq])]

theorem claim_C1_diff_atomicity_witness :
    (applyBlocks (splitContent "Line 1\nLine 2\nLine 3\n").1
        [⟨3, "Wrong Line 3", "Modified Line 3"⟩,
         ⟨1, "Line 1", "Modified Line 1"⟩]).2.2 ≠ [] ∧
    (apply_diff_tool [("partial.txt", "Line 1\nLine 2\nLine 3\n")]
        "partial.txt"
        "<<<<<<< SEARCH\n:start_line:1\n-------\nLine 1\n=======\nModified Line 1\n>>>>>>> REPLACE\n<<<<<<< SEARCH\n:start_line:3\n-------\nWrong Line 3\n=======\nModified Line 3\n>>>>>>> REPLACE"
      = (joinLines
          ((applyBlocks (splitContent "Line 1\nLine 2\nLine 3\n").1
              [⟨3, "Wrong Line 3", "Modified Line 3"⟩,
               ⟨1, "Line 1", "Modified Line 1"⟩]).2.2
            ++ (applyBlocks (splitContent "Line 1\nLine 2\nLine 3\n").1
              [⟨3, "Wrong Line 3", "Modified Line 3"⟩,
               ⟨1, "Line 1", "Modified Line 1"⟩]).2.1),
         [("partial.txt", "Line 1\nLine 2\nLine 3\n")]) ∧
      containsTok
        (apply_diff_tool [("partial.txt", "Line 1\nLine 2\nLine 3\n")]
          "partial.txt"
          "<<<<<<< SEARCH\n:start_line:1\n-------\nLine 1\n=======\nModified Line 1\n>>>>>>> REPLACE\n<<<<<<< SEARCH\n:start_line:3\n-------\nWrong Line 3\n=======\nModified Line 3\n>>>>>>> REPLACE").1
        "Failed") :=
  ⟨by decide,
    claim_C1_diff_atomicity
      [("partial.txt", "Line 1\nLine 2\nLine 3\n")] "partial.txt"
      "<<<<<<< SEARCH\n:start_line:1\n-------\nLine 1\n=======\nModified Line 1\n>>>>>>> REPLACE\n<<<<<<< SEARCH\n:start_line:3\n-------\nWrong Line 3\n=======\nModified Line 3\n>>>>>>> REPLACE"
      "Line 1\nLine 2\nLine 3\n"
      [⟨3, "Wrong Line 3", "Modified Line 3"⟩,
       ⟨1, "Line 1", "Modified Line 1"⟩]
      (by decide) (by decide) rfl rfl rfl |>.1 (by decide)⟩

/-- Members of an insertion are the new block or old members. -/
theorem mem_insBlock {y b : EditBlock} :
    ∀ {l : List EditBlock}, y ∈ insBlock b l → y = b ∨ y ∈ l
  | [], h => by simpa [insBlock] using h
  | x :: xs, h => by
    rw [insBlock] at h
    split at h
    · rcases List.mem_cons.1 h with rfl | h
      · exact Or.inl rfl
      · exact Or.inr h
    · rcases List.mem_cons.1 h with rfl | h
      · exact Or.inr (List.mem_cons_self _ _)
      · rcases mem_insBlock h with h | h
        · exact Or.inl h
        · exact Or.inr (List.mem_cons_of_mem _ h)

/-- Insertion preserves the descending order. -/
theorem insBlock_pairwise {b : EditBlock} :
    ∀ {l : List EditBlock},
      l.Pairwise (fun x y => y.start_line ≤ x.start_line) →
      (insBlock b l).Pairwise (fun x y => y.start_line ≤ x.start_line)
  | [], _ => by simp [insBlock]
  | x :: xs, h => by
    rw [insBlock]
    rcases List.pairwise_cons.1 h with ⟨hx, hxs⟩
    split
    · refine List.pairwise_cons.2 ⟨?_, h⟩
      intro y hy
      rcases List.mem_cons.1 hy with rfl | hy
      · omega
      · have := hx y hy
        omega
    · refine List.pairwise_cons.2 ⟨?_, insBlock_pairwise hxs⟩
      intro y hy
      rcases mem_insBlock hy with rfl | hy
      · omega
      · exact hx y hy

/-- The sorted output is descending in `start_line`. -/
theorem sortBlocksDesc_pairwise :
    ∀ (l : List EditBlock),
      (sortBlocksDesc l).Pairwise (fun x y => y.start_line ≤ x.start_line)
  | [] => by simp [sortBlocksDesc]
  | b :: rest => by
    rw [sortBlocksDesc]
    exact insBlock_pairwise (sortBlocksDesc_pairwise rest)

/-- Stability of the insertion: for any key, filtering the insertion result
either prepends the new block (when it has that key) or leaves the filtered
list unchanged. -/
theorem insBlock_filter (b : EditBlock) (n : Nat) :
    ∀ (l : List EditBlock),
      (insBlock b l).filter (fun x => x.start_line == n)
        = if b.start_line = n then
            b :: l.filter (fun x => x.start_line == n)
          else l.filter (fun x => x.start_line == n)
  | [] => by
    by_cases hb : b.start_line = n
    · simp [insBlock, List.filter, hb]
    · have hbn : (b.start_line == n) = false := by simp [hb]
      simp [insBlock, List.filter, hbn, hb]
  | x :: xs => by
    rw [insBlock]
    by_cases hcmp : x.start_line ≤ b.start_line
    · rw [if_pos hcmp]
      by_cases hb : b.start_line = n
      · simp [List.filter, hb]
      · simp only [List.filter]
        have hbn : (b.start_line == n) = false := by
          simp [hb]
        rw [if_neg hb]
        simp [hbn]
    · rw [if_neg hcmp]
      by_cases hb : b.start_line = n
      · have hxn : (x.start_line == n) = false := by
          simp only [beq_eq_false_iff_ne, ne_eq]
          omega
        rw [if_pos hb]
        simp only [List.filter, hxn]
        rw [insBlock_filter b n xs, if_pos hb]
      · have h2 := insBlock_filter b n xs
        rw [if_neg hb] at h2
        rw [if_neg hb]
        simp only [List.filter]
        cases hxn : (x.start_line == n) <;> simp [h2]

/-- Stability of the sort: for any key, the blocks with that key appear in
the sorted output exactly in their original document order. -/
theorem sortBlocksDesc_filter (n : Nat) :
    ∀ (l : List EditBlock),
      (sortBlocksDesc l).filter (fun x => x.start_line == n)
        = l.filter (fun x => x.start_line == n)
  | [] => rfl
  | b :: rest => by
    rw [sortBlocksDesc, insBlock_filter b n (sortBlocksDesc rest),
      sortBlocksDesc_filter n rest]
    by_cases hb : b.start_line = n
    · rw [if_pos hb]
      have hbn : (b.start_line == n) = true := by simp [hb]
      simp [List.filter, hbn]
    · rw [if_neg hb]
      have hbn : (b.start_line == n) = false := by simp [hb]
      simp [List.filter, hbn]

/-- A successfully applied block leaves all lines before its start line
untouched. -/
theorem applyOneBlock_preserves_head (lines : List String) (b : EditBlock)
    (newLines : List String) (h : applyOneBlock lines b = .ok newLines) :
    newLines.take (b.start_line - 1) = lines.take (b.start_line - 1) := by
  unfold applyOneBlock at h
  dsimp only at h
  by_cases hbound : b.start_line = 0 ∨
      lines.length < (b.start_line - 1) + (textLines b.search_text).length
  · rw [if_pos hbound] at h
    cases h
  · rw [if_neg hbound] at h
    by_cases hmatch : (lines.drop (b.start_line - 1)).take
        (textLines b.search_text).length = textLines b.search_text
    · rw [if_pos hmatch] at h
      cases h
      have hidx : (b.start_line - 1) ≤ lines.length := by omega
      have hlen : (List.take (b.start_line - 1) lines).length
          = b.start_line - 1 := by
        rw [List.length_take]
        omega
      rw [List.take_append_eq_append_take, List.take_append_eq_append_take,
        List.take_take, Nat.min_self, hlen, Nat.sub_self, List.take_zero]
      have hz : b.start_line - 1
          - (List.take (b.start_line - 1) lines
              ++ textLines b.replace_text).length = 0 := by
        rw [List.length_append, hlen]
        omega
      rw [hz, List.take_zero]
      simp
    · rw [if_neg hmatch] at h
      cases h

/-- Claim C3: for every diff document accepted by `parse_diff_blocks` the
returned block list is sorted by `start_line` in descending order, the sort
is stable (for every line number, the blocks with that start line keep their
scan order, the document order), and applying a block in bounds never
shifts the lines before its start line. -/
theorem claim_C3_parse_sorted_desc (diff : String) (blocks : List EditBlock)
    (hparse : parse_diff_blocks diff = .ok blocks) :
    blocks.Pairwise (fun a b => b.start_line ≤ a.start_line) ∧
    (∀ raw, scanBlocks diff = .ok raw →
      blocks = sortBlocksDesc raw ∧
      ∀ n, blocks.filter (fun b => b.start_line == n)
        = raw.filter (fun b => b.start_line == n)) ∧
    (∀ lines b newLines, applyOneBlock lines b = .ok newLines →
      newLines.take (b.start_line - 1) = lines.take (b.start_line - 1)) := by
  have hscan : ∃ raw, scanBlocks diff = .ok raw
      ∧ blocks = sortBlocksDesc raw := by
    unfold parse_diff_blocks at hparse
    cases hs : scanBlocks diff with
    | error e =>
      rw [hs] at hparse
      simp [Except.map] at hparse
    | ok raw =>
      rw [hs] at hparse
      simp only [Except.map, Except.ok.injEq] at hparse
      exact ⟨raw, rfl, hparse.symm⟩
  obtain ⟨raw, hs, rfl⟩ := hscan
  refine ⟨sortBlocksDesc_pairwise raw, ?_, applyOneBlock_preserves_head⟩
  intro raw2 hs2
  rw [hs] at hs2
  cases hs2
  exact ⟨rfl, fun n => sortBlocksDesc_filter n raw⟩

theorem claim_C3_parse_sorted_desc_witness :
    parse_diff_blocks
        "<<<<<<< SEARCH\n:start_line:5\n-------\nfirst block original\n=======\nfirst block modified\n>>>>>>> REPLACE\n<<<<<<< SEARCH\n:start_line:10\n-------\nsecond block original\n=======\nsecond block modified\n>>>>>>> REPLACE"
      = .ok [⟨10, "second block original", "second block modified"⟩,
             ⟨5, "first block original", "first block modified"⟩] ∧
    ([⟨10, "second block original", "second block modified"⟩,
      ⟨5, "first block original", "first block modified"⟩] :
        List EditBlock).Pairwise (fun a b => b.start_line ≤ a.start_line) :=
  ⟨rfl,
    (claim_C3_parse_sorted_desc
      "<<<<<<< SEARCH\n:start_line:5\n-------\nfirst block original\n=======\nfirst block modified\n>>>>>>> REPLACE\n<<<<<<< SEARCH\n:start_line:10\n-------\nsecond block original\n=======\nsecond block modified\n>>>>>>> REPLACE"
      [⟨10, "second block original", "second block modified"⟩,
       ⟨5, "first block original", "first block modified"⟩] rfl).1⟩

/-- A singleton list is a trailing piece exactly of lists ending in it. -/
theorem singleton_sfx_iff (c : Char) :
    ∀ (l : List Char), ([c] <:+ l) ↔ l.getLast? = some c
  | [] => by simp
  | [x] => by
    rw [List.suffix_cons_iff]
    simp [eq_comm]
  | x :: y :: ys => by
    rw [List.suffix_cons_iff, List.getLast?_cons_cons,
      singleton_sfx_iff c (y :: ys)]
    constructor
    · rintro (h | h)
      · simp at h
      · exact h
    · exact fun h => Or.inr h

/-- Whether a string ends with a newline depends only on a nonempty tail. -/
theorem strEnds_append_nl (a s : String) (hs : s.data ≠ []) :
    strEnds (a ++ s) "\n" = strEnds s "\n" := by
  unfold strEnds
  apply decide_eq_decide.2
  rw [String.data_append]
  have h1 : "\n".data = ['\n'] := rfl
  rw [h1, singleton_sfx_iff, singleton_sfx_iff, List.getLast?_append]
  cases hgl : s.data.getLast? with
  | none =>
    exact absurd (List.getLast?_eq_none_iff.1 hgl) hs
  | some c => simp [Option.or]

/-- If the last content line neither is empty nor carries an explicit
terminator, the joined text has no trailing terminator. -/
theorem joinLines_no_trailing : ∀ (ls : List String),
    (∀ l, ls.getLast? = some l → strEnds l "\n" = false ∧ l ≠ "") →
    strEnds (joinLines ls) "\n" = false
  | [], _ => by decide
  | [x], h => (h x rfl).1
  | x :: y :: ys, h => by
    have hlast : ∀ l, (y :: ys).getLast? = some l →
        strEnds l "\n" = false ∧ l ≠ "" := by
      intro l hl
      exact h l (by rw [List.getLast?_cons_cons]; exact hl)
    have hne : (joinLines (y :: ys)).data ≠ [] := by
      cases ys with
      | nil =>
        have hy := hlast y rfl
        show y.data ≠ []
        intro hcon
        apply hy.2
        cases y with
        | mk d =>
          rw [show d = [] from hcon]
      | cons z zs =>
        show (y ++ "\n" ++ joinLines (z :: zs)).data ≠ []
        rw [String.data_append, String.data_append]
        simp
    show strEnds (x ++ "\n" ++ joinLines (y :: ys)) "\n" = false
    rw [strEnds_append_nl (x ++ "\n") _ hne]
    exact joinLines_no_trailing (y :: ys) hlast

/-- Claim C6: round trip for Add.  For every Add operation on a guarded path:
when the path does not exist, the file afterwards holds exactly the content
lines joined with `"\n"` (zero lines give the empty file, and the join adds
no trailing terminator when the last line does not carry one); when the path
already exists, the operation fails with the collision error and the
filesystem — hence the existing content — is unchanged. -/
theorem claim_C6_add_round_trip (fs : FS) (p : String) (ls : List String)
    (hguard : pathError p = none) :
    (fsFind fs p = none →
      applyOp fs (.add p ls)
        = (.ok ("Created file: " ++ p), fsSet fs p (joinLines ls)) ∧
      fsFind (applyOp fs (.add p ls)).2 p = some (joinLines ls) ∧
      joinLines [] = "" ∧
      ((∀ l, ls.getLast? = some l → strEnds l "\n" = false ∧ l ≠ "") →
        strEnds (joinLines ls) "\n" = false)) ∧
    (∀ c, fsFind fs p = some c →
      applyOp fs (.add p ls)
        = (.err ("Cannot add file '" ++ p ++ "': path already exists."), fs) ∧
      fsFind (applyOp fs (.add p ls)).2 p = some c) := by
  constructor
  · intro hnone
    have he : applyOp fs (.add p ls)
        = (.ok ("Created file: " ++ p), fsSet fs p (joinLines ls)) := by
      simp only [applyOp]
      rw [hguard, hnone]
    refine ⟨he, ?_, rfl, joinLines_no_trailing ls⟩
    rw [he]
    exact fsFind_fsSet_self fs p (joinLines ls)
  · intro c hc
    have he : applyOp fs (.add p ls)
        = (.err ("Cannot add file '" ++ p ++ "': path already exists."), fs) := by
      simp only [applyOp]
      rw [hguard, hc]
    refine ⟨he, ?_⟩
    rw [he]
    exact hc

theorem claim_C6_add_round_trip_witness :
    pathError "new_file.txt" = none ∧
    fsFind [] "new_file.txt" = none ∧
    fsFind
      (applyOp []
        (.add "new_file.txt"
          ["Hello Enhanced Patch!", "This is the second line."])).2
      "new_file.txt"
      = some (joinLines ["Hello Enhanced Patch!", "This is the second line."]) ∧
    strEnds
      (joinLines ["Hello Enhanced Patch!", "This is the second line."]) "\n"
      = false :=
  ⟨rfl, rfl,
    ((claim_C6_add_round_trip [] "new_file.txt"
        ["Hello Enhanced Patch!", "This is the second line."] rfl).1
      rfl).2.1,
    ((claim_C6_add_round_trip [] "new_file.txt"
        ["Hello Enhanced Patch!", "This is the second line."] rfl).1
      rfl).2.2.2 (by decide)⟩

theorem tok_self (s : String) : containsTok s s :=
  ⟨[], [], by simp⟩

theorem tok_in_str_append_left (a b : String) {t : String}
    (h : containsTok a t) : containsTok (a ++ b) t := by
  show t.data <:+: (a ++ b).data
  rw [String.data_append]
  exact tok_in_append_left _ h

theorem tok_in_str_append_right (a b : String) {t : String}
    (h : containsTok b t) : containsTok (a ++ b) t := by
  show t.data <:+: (a ++ b).data
  rw [String.data_append]
  exact tok_in_append_right _ h

/-- Claim C5: move semantics of Update with `move_to`.  For every Update
operation on an existing source file, with both paths passing the guard:
if the destination exists, the operation fails with an error naming the
collision and both paths, and neither file is mutated; if the destination
does not exist, afterwards the source is absent, the destination holds the
updated content, and the status is an `"Updated and moved"` message naming
both paths. -/
theorem claim_C5_move_semantics (fs : FS) (src dest : String)
    (hs : List Hunk) (c : String)
    (hguardS : pathError src = none) (hguardD : pathError dest = none)
    (hsrc : fsFind fs src = some c) :
    (∀ d, fsFind fs dest = some d →
      applyOp fs (.upd src (some dest) hs)
        = (.err ("Cannot move '" ++ src ++ "' to '" ++ dest
            ++ "': destination already exists."), fs) ∧
      containsTok (OpStatus.render (applyOp fs (.upd src (some dest) hs)).1)
        "destination already exists" ∧
      containsTok (OpStatus.render (applyOp fs (.upd src (some dest) hs)).1)
        src ∧
      containsTok (OpStatus.render (applyOp fs (.upd src (some dest) hs)).1)
        dest ∧
      fsFind (applyOp fs (.upd src (some dest) hs)).2 src = some c ∧
      fsFind (applyOp fs (.upd src (some dest) hs)).2 dest = some d) ∧
    (fsFind fs dest = none →
      applyOp fs (.upd src (some dest) hs)
        = (.ok ("Updated and moved '" ++ src ++ "' to '" ++ dest ++ "'"
            ++ renderFuzz (updateContent c hs).2),
          fsSet (fsErase fs src) dest (updateContent c hs).1) ∧
      fsFind (applyOp fs (.upd src (some dest) hs)).2 src = none ∧
      fsFind (applyOp fs (.upd src (some dest) hs)).2 dest
        = some (updateContent c hs).1 ∧
      containsTok (OpStatus.render (applyOp fs (.upd src (some dest) hs)).1)
        "Updated and moved" ∧
      containsTok (OpStatus.render (applyOp fs (.upd src (some dest) hs)).1)
        src ∧
      containsTok (OpStatus.render (applyOp fs (.upd src (some dest) hs)).1)
        dest) := by
  constructor
  · intro d hd
    have he : applyOp fs (.upd src (some dest) hs)
        = (.err ("Cannot move '" ++ src ++ "' to '" ++ dest
            ++ "': destination already exists."), fs) := by
      simp only [applyOp]
      rw [hguardS, hsrc, hguardD, hd]
    rw [he]
    refine ⟨rfl, ?_, ?_, ?_, hsrc, hd⟩
    · exact tok_in_str_append_right _ _ (tok_in_str_append_right _ _
        (by decide))
    · show containsTok ((("Error: " ++ ("Cannot move '" ++ src ++ "' to '"
        ++ dest ++ "': destination already exists.")))) src
      exact tok_in_str_append_right _ _ (tok_in_str_append_left _ _
        (tok_in_str_append_left _ _ (tok_in_str_append_left _ _
          (tok_in_str_append_right _ _ (tok_self src)))))
    · exact tok_in_str_append_right _ _ (tok_in_str_append_left _ _
        (tok_in_str_append_right _ _ (tok_self dest)))
  · intro hd
    have hne : src ≠ dest := by
      intro hcon
      rw [hcon, hd] at hsrc
      cases hsrc
    have he : applyOp fs (.upd src (some dest) hs)
        = (.ok ("Updated and moved '" ++ src ++ "' to '" ++ dest ++ "'"
            ++ renderFuzz (updateContent c hs).2),
          fsSet (fsErase fs src) dest (updateContent c hs).1) := by
      simp only [applyOp]
      rw [hguardS, hsrc, hguardD, hd]
    rw [he]
    refine ⟨rfl, ?_, ?_, ?_, ?_, ?_⟩
    · rw [fsFind_fsSet_other _ _ _ _ hne, fsFind_fsErase]
      simp
    · exact fsFind_fsSet_self _ _ _
    · exact tok_in_str_append_left _ _ (tok_in_str_append_left _ _
        (tok_in_str_append_left _ _ (tok_in_str_append_left _ _
          (tok_in_str_append_left _ _ (by decide)))))
    · exact tok_in_str_append_left _ _ (tok_in_str_append_left _ _
        (tok_in_str_append_left _ _ (tok_in_str_append_left _ _
          (tok_in_str_append_right _ _ (tok_self src)))))
    · exact tok_in_str_append_left _ _ (tok_in_str_append_left _ _
        (tok_in_str_append_right _ _ (tok_self dest)))

theorem claim_C5_move_semantics_witness :
    (applyOp [("move_me.txt", "Original"), ("already_here.txt", "Destination")]
        (.upd "move_me.txt" (some "already_here.txt")
          [⟨1, [], ["Original"], ["Updated but fails"], true⟩])
      = (.err ("Cannot move '" ++ "move_me.txt" ++ "' to '"
          ++ "already_here.txt" ++ "': destination already exists."),
        [("move_me.txt", "Original"), ("already_here.txt", "Destination")])) ∧
    fsFind
      (applyOp [("move_me.txt", "Original"), ("already_here.txt", "Destination")]
        (.upd "move_me.txt" (some "already_here.txt")
          [⟨1, [], ["Original"], ["Updated but fails"], true⟩])).2
      "move_me.txt" = some "Original" ∧
    fsFind
      (applyOp [("move_me.txt", "Original"), ("already_here.txt", "Destination")]
        (.upd "move_me.txt" (some "already_here.txt")
          [⟨1, [], ["Original"], ["Updated but fails"], true⟩])).2
      "already_here.txt" = some "Destination" ∧
    fsFind
      (applyOp [("original_name.txt", "This will be moved.")]
        (.upd "original_name.txt" (some "new_name_updated.txt")
          [⟨1, [], ["This will be moved."],
            ["This content was moved and updated."], true⟩])).2
      "original_name.txt" = none ∧
    fsFind
      (applyOp [("original_name.txt", "This will be moved.")]
        (.upd "original_name.txt" (some "new_name_updated.txt")
          [⟨1, [], ["This will be moved."],
            ["This content was moved and updated."], true⟩])).2
      "new_name_updated.txt"
      = some (updateContent "This will be moved."
          [⟨1, [], ["This will be moved."],
            ["This content was moved and updated."], true⟩]).1 :=
  ⟨((claim_C5_move_semantics
      [("move_me.txt", "Original"), ("already_here.txt", "Destination")]
      "move_me.txt" "already_here.txt"
      [⟨1, [], ["Original"], ["Updated but fails"], true⟩]
      "Original" rfl rfl rfl).1 "Destination" rfl).1,
   ((claim_C5_move_semantics
      [("move_me.txt", "Original"), ("already_here.txt", "Destination")]
      "move_me.txt" "already_here.txt"
      [⟨1, [], ["Original"], ["Updated but fails"], true⟩]
      "Original" rfl rfl rfl).1 "Destination" rfl).2.2.2.2.1,
   ((claim_C5_move_semantics
      [("move_me.txt", "Original"), ("already_here.txt", "Destination")]
      "move_me.txt" "already_here.txt"
      [⟨1, [], ["Original"], ["Updated but fails"], true⟩]
      "Original" rfl rfl rfl).1 "Destination" rfl).2.2.2.2.2,
   ((claim_C5_move_semantics
      [("original_name.txt", "This will be moved.")]
      "original_name.txt" "new_name_updated.txt"
      [⟨1, [], ["This will be moved."],
        ["This content was moved and updated."], true⟩]
      "This will be moved." rfl rfl rfl).2 rfl).2.1,
   ((claim_C5_move_semantics
      [("original_name.txt", "This will be moved.")]
      "original_name.txt" "new_name_updated.txt"
      [⟨1, [], ["This will be moved."],
        ["This content was moved and updated."], true⟩]
      "This will be moved." rfl rfl rfl).2 rfl).2.2.1⟩

/-- Claim C8 (amended): for every non-empty patch document, a document not
starting with the begin-marker line fails with the format error naming the
missing start marker; one starting correctly but not ending with the
end-marker line fails with the format error naming the missing end marker;
the two messages are distinguishable, and in both cases the filesystem is
unchanged.  (The empty document instead hits the required-argument check —
see the counterexample.) -/
theorem claim_C8_patch_markers (fs : FS) (patch : String) (hne : patch ≠ "") :
    (strStarts patch "*** Begin Patch" = false →
      apply_patch fs patch
        = ("Error: Invalid patch format. Must start with '*** Begin Patch'.",
           fs) ∧
      containsTok (apply_patch fs patch).1 "Must start with" ∧
      containsTok (apply_patch fs patch).1 "Error") ∧
    (strStarts patch "*** Begin Patch" = true →
      strEnds (strTrim patch) "*** End Patch" = false →
      apply_patch fs patch
        = ("Error: Invalid patch format. Must end with '*** End Patch'.",
           fs) ∧
      containsTok (apply_patch fs patch).1 "Must end with" ∧
      containsTok (apply_patch fs patch).1 "Error") ∧
    ¬ containsTok
      "Error: Invalid patch format. Must start with '*** Begin Patch'."
      "Must end with" ∧
    ¬ containsTok
      "Error: Invalid patch format. Must end with '*** End Patch'."
      "Must start with" := by
  refine ⟨?_, ?_, by decide, by decide⟩
  · intro h1
    have he : apply_patch fs patch
        = ("Error: Invalid patch format. Must start with '*** Begin Patch'.",
           fs) := by
      unfold apply_patch apply_patch_core
      rw [if_neg hne, h1]
      rfl
    rw [he]
    refine ⟨rfl, ?_, ?_⟩
    · show containsTok
        "Error: Invalid patch format. Must start with '*** Begin Patch'."
        "Must start with"
      decide
    · show containsTok
        "Error: Invalid patch format. Must start with '*** Begin Patch'."
        "Error"
      decide
  · intro h1 h2
    have he : apply_patch fs patch
        = ("Error: Invalid patch format. Must end with '*** End Patch'.",
           fs) := by
      unfold apply_patch apply_patch_core
      rw [if_neg hne, h1, h2]
      rfl
    rw [he]
    refine ⟨rfl, ?_, ?_⟩
    · show containsTok
        "Error: Invalid patch format. Must end with '*** End Patch'."
        "Must end with"
      decide
    · show containsTok
        "Error: Invalid patch format. Must end with '*** End Patch'."
        "Error"
      decide

theorem claim_C8_patch_markers_witness :
    ("*** Add File: missing_prefix.txt\n+content\n*** End Patch" ≠ "") ∧
    strStarts "*** Add File: missing_prefix.txt\n+content\n*** End Patch"
      "*** Begin Patch" = false ∧
    (apply_patch [] "*** Add File: missing_prefix.txt\n+content\n*** End Patch"
      = ("Error: Invalid patch format. Must start with '*** Begin Patch'.",
         []) ∧
     containsTok
       (apply_patch []
         "*** Add File: missing_prefix.txt\n+content\n*** End Patch").1
       "Must start with" ∧
     containsTok
       (apply_patch []
         "*** Add File: missing_prefix.txt\n+content\n*** End Patch").1
       "Error") ∧
    (apply_patch [] "*** Begin Patch\n*** Add File: missing_suffix.txt\n+content"
      = ("Error: Invalid patch format. Must end with '*** End Patch'.",
         []) ∧
     containsTok
       (apply_patch []
         "*** Begin Patch\n*** Add File: missing_suffix.txt\n+content").1
       "Must end with" ∧
     containsTok
       (apply_patch []
         "*** Begin Patch\n*** Add File: missing_suffix.txt\n+content").1
       "Error") :=
  ⟨by decide, by decide,
    (claim_C8_patch_markers []
      "*** Add File: missing_prefix.txt\n+content\n*** End Patch"
      (by decide)).1 (by decide),
    ((claim_C8_patch_markers []
      "*** Begin Patch\n*** Add File: missing_suffix.txt\n+content"
      (by decide)).2.1 (by decide) (by decide))⟩

/-- Counterexample to claim C8 as stated: the empty document does not start
with the begin-marker line, yet the call fails with the required-argument
error, which does not identify the missing start marker. -/
theorem claim_C8_counterexample :
    apply_patch [] "" = ("Error: 'patch_text' argument is required.", []) ∧
    strStarts "" "*** Begin Patch" = false ∧
    ¬ containsTok (apply_patch [] "").1 "Must start with" :=
  ⟨rfl, by decide, by decide⟩

theorem updFor_extendUpd (x q : String) (mv : Option String)
    (hs : List Hunk) (op : POp) :
    updFor x (extendUpd q mv hs op) = updFor x op := by
  cases op with
  | add a ls => rfl
  | del a => rfl
  | upd r mv0 hs0 =>
    simp only [extendUpd]
    split
    · rfl
    · rfl

theorem extendUpd_eq_self {x : String} {op : POp} (mv : Option String)
    (hs : List Hunk) (h : updFor x op = false) :
    extendUpd x mv hs op = op := by
  cases op with
  | add a ls => rfl
  | del a => rfl
  | upd r mv0 hs0 =>
    simp only [updFor] at h
    simp [extendUpd, h]

theorem countU_cons (x : String) (op : POp) (rest : List POp) :
    countU x (op :: rest)
      = countU x rest + (if updFor x op = true then 1 else 0) := by
  by_cases hf : updFor x op = true
  · simp [countU, List.filter_cons, hf]
  · have hf' : updFor x op = false := by simpa using hf
    simp [countU, List.filter_cons, hf']

theorem countU_append (x : String) (l1 l2 : List POp) :
    countU x (l1 ++ l2) = countU x l1 + countU x l2 := by
  simp [countU, List.filter_append]

theorem countU_map_extend (x q : String) (mv : Option String)
    (hs : List Hunk) :
    ∀ (l : List POp), countU x (l.map (extendUpd q mv hs)) = countU x l
  | [] => rfl
  | op :: rest => by
    rw [List.map_cons, countU_cons, countU_cons, updFor_extendUpd,
      countU_map_extend x q mv hs rest]

theorem countU_pos_of_any (x : String) {l : List POp}
    (h : l.any (updFor x) = true) : 0 < countU x l := by
  obtain ⟨e, he, hfe⟩ := List.any_eq_true.1 h
  have hm : e ∈ l.filter (updFor x) := List.mem_filter.2 ⟨he, hfe⟩
  exact List.length_pos.2 (List.ne_nil_of_mem hm)

theorem opHunks_eq_nil {x : String} {op : POp} (h : updFor x op = false) :
    opHunks x op = [] := by
  cases op with
  | add a ls => rfl
  | del a => rfl
  | upd q mv0 hs0 =>
    simp only [updFor] at h
    simp [opHunks, h]

theorem hunksFor_eq_nil (x : String) :
    ∀ {l : List POp}, countU x l = 0 → hunksFor x l = []
  | [], _ => rfl
  | op :: rest, h => by
    rw [countU_cons] at h
    have h1 : updFor x op = false := by
      by_cases hf : updFor x op = true
      · rw [if_pos hf] at h
        omega
      · simpa using hf
    have h2 : countU x rest = 0 := by
      rw [if_neg (by simp [h1])] at h
      omega
    rw [hunksFor, opHunks_eq_nil h1, hunksFor_eq_nil x h2]
    rfl

theorem hunksFor_append (x : String) :
    ∀ (l1 l2 : List POp),
      hunksFor x (l1 ++ l2) = hunksFor x l1 ++ hunksFor x l2
  | [], l2 => by simp [hunksFor]
  | op :: rest, l2 => by
    rw [List.cons_append, hunksFor, hunksFor,
      hunksFor_append x rest l2, List.append_assoc]

theorem hunksFor_map_extend_ne (x q : String) (mv : Option String)
    (hs : List Hunk) (hq : (q == x) = false) :
    ∀ (l : List POp),
      hunksFor x (l.map (extendUpd q mv hs)) = hunksFor x l
  | [] => rfl
  | op :: rest => by
    rw [List.map_cons, hunksFor, hunksFor,
      hunksFor_map_extend_ne x q mv hs hq rest]
    congr 1
    cases op with
    | add a ls => rfl
    | del a => rfl
    | upd r mv0 hs0 =>
      simp only [extendUpd]
      by_cases hrq : (r == q) = true
      · rw [if_pos hrq]
        by_cases hrx : (r == x) = true
        · have h1 : r = q := by simpa using hrq
          have h2 : r = x := by simpa using hrx
          have : (q == x) = true := by simp [← h1, h2]
          rw [this] at hq
          cases hq
        · have hrx' : (r == x) = false := by simpa using hrx
          simp [opHunks, hrx']
      · rw [if_neg hrq]

theorem hunksFor_map_extend_eq (x : String) (mv : Option String)
    (hs : List Hunk) :
    ∀ (l : List POp), countU x l ≤ 1 →
      hunksFor x (l.map (extendUpd x mv hs))
        = hunksFor x l ++ (if countU x l = 0 then [] else hs)
  | [], _ => by simp [hunksFor, countU]
  | op :: rest, h => by
    rw [countU_cons] at h
    by_cases hf : updFor x op = true
    · rw [if_pos hf] at h
      have hrest : countU x rest = 0 := by omega
      have hmap : countU x (rest.map (extendUpd x mv hs)) = 0 := by
        rw [countU_map_extend]
        exact hrest
      cases op with
      | add a ls => simp [updFor] at hf
      | del a => simp [updFor] at hf
      | upd q mv0 hs0 =>
        simp only [updFor] at hf
        rw [List.map_cons, hunksFor, hunksFor,
          hunksFor_eq_nil x hmap, hunksFor_eq_nil x hrest]
        have hcount : countU x (POp.upd q mv0 hs0 :: rest) ≠ 0 := by
          rw [countU_cons, if_pos (by simp [updFor, hf])]
          omega
        rw [if_neg hcount]
        simp only [extendUpd, if_pos hf, opHunks, if_pos hf]
        simp
    · have hf' : updFor x op = false := by simpa using hf
      rw [if_neg (by simp [hf'])] at h
      rw [List.map_cons, extendUpd_eq_self mv hs hf', hunksFor, hunksFor,
        hunksFor_map_extend_eq x mv hs rest (by omega)]
      have hsame : countU x (op :: rest) = countU x rest := by
        rw [countU_cons, if_neg (by simp [hf'])]
        omega
      rw [hsame, List.append_assoc]

theorem countU_addOpMerged (x : String) (acc : List POp) (op : POp)
    (h : countU x acc ≤ 1) :
    countU x (addOpMerged acc op) ≤ 1 ∧
    (countU x (addOpMerged acc op) = 0 ↔
      countU x acc = 0 ∧ updFor x op = false) := by
  cases op with
  | add a ls =>
    have hred : addOpMerged acc (POp.add a ls) = acc ++ [POp.add a ls] := rfl
    rw [hred, countU_append]
    have hz : countU x [POp.add a ls] = 0 := rfl
    rw [hz]
    constructor
    · omega
    · simp [updFor]
  | del a =>
    have hred : addOpMerged acc (POp.del a) = acc ++ [POp.del a] := rfl
    rw [hred, countU_append]
    have hz : countU x [POp.del a] = 0 := rfl
    rw [hz]
    constructor
    · omega
    · simp [updFor]
  | upd q mv hs =>
    have hred : addOpMerged acc (POp.upd q mv hs)
        = if acc.any (updFor q) then acc.map (extendUpd q mv hs)
          else acc ++ [POp.upd q mv hs] := rfl
    rw [hred]
    by_cases hany : acc.any (updFor q) = true
    · rw [if_pos hany, countU_map_extend]
      by_cases hq : (q == x) = true
      · have hqx : q = x := by simpa using hq
        have hpos : 0 < countU x acc := countU_pos_of_any x (hqx ▸ hany)
        refine ⟨h, ?_⟩
        simp [updFor, hq]
        omega
      · have hq' : (q == x) = false := by simpa using hq
        refine ⟨h, ?_⟩
        simp [updFor, hq']
    · rw [if_neg (by simpa using hany)]
      rw [countU_append, countU_cons]
      have hz : countU x ([] : List POp) = 0 := rfl
      by_cases hq : (q == x) = true
      · have hqx : q = x := by simpa using hq
        have hzero : countU x acc = 0 := by
          have := List.any_eq_false.1 (by simpa using hany)
          have hfil : acc.filter (updFor q) = [] :=
            List.filter_eq_nil_iff.2 (by
              intro e he
              simp [this e he])
          rw [← hqx]
          simp [countU, hfil]
        rw [if_pos (by simp [updFor, hq]), hz, hzero]
        constructor
        · omega
        · simp [updFor, hq]
      · have hq' : (q == x) = false := by simpa using hq
        rw [if_neg (by simp [updFor, hq']), hz]
        constructor
        · omega
        · simp [updFor, hq']

theorem hunksFor_addOpMerged (x : String) (acc : List POp) (op : POp)
    (h : countU x acc ≤ 1) :
    hunksFor x (addOpMerged acc op) = hunksFor x acc ++ opHunks x op := by
  cases op with
  | add a ls =>
    have hred : addOpMerged acc (POp.add a ls) = acc ++ [POp.add a ls] := rfl
    rw [hred, hunksFor_append]
    simp [hunksFor, opHunks]
  | del a =>
    have hred : addOpMerged acc (POp.del a) = acc ++ [POp.del a] := rfl
    rw [hred, hunksFor_append]
    simp [hunksFor, opHunks]
  | upd q mv hs =>
    have hred : addOpMerged acc (POp.upd q mv hs)
        = if acc.any (updFor q) then acc.map (extendUpd q mv hs)
          else acc ++ [POp.upd q mv hs] := rfl
    rw [hred]
    by_cases hany : acc.any (updFor q) = true
    · rw [if_pos hany]
      by_cases hq : (q == x) = true
      · have hqx : q = x := by simpa using hq
        subst hqx
        have hpos : 0 < countU q acc := countU_pos_of_any q hany
        rw [hunksFor_map_extend_eq q mv hs acc h, if_neg (by omega)]
        simp [opHunks]
      · have hq' : (q == x) = false := by simpa using hq
        rw [hunksFor_map_extend_ne x q mv hs hq' acc]
        simp [opHunks, hq']
    · rw [if_neg (by simpa using hany), hunksFor_append]
      simp [hunksFor, opHunks]

theorem foldl_merge_count (x : String) :
    ∀ (ops acc : List POp), countU x acc ≤ 1 →
      countU x (ops.foldl addOpMerged acc) ≤ 1 ∧
      (countU x (ops.foldl addOpMerged acc) = 0 ↔
        countU x acc = 0 ∧ countU x ops = 0)
  | [], acc, h => by
    refine ⟨h, ?_⟩
    have hz : countU x ([] : List POp) = 0 := rfl
    simp [List.foldl, hz]
  | op :: rest, acc, h => by
    rw [List.foldl_cons]
    obtain ⟨h1, h2⟩ := countU_addOpMerged x acc op h
    obtain ⟨h3, h4⟩ := foldl_merge_count x rest (addOpMerged acc op) h1
    refine ⟨h3, ?_⟩
    rw [h4, h2, countU_cons]
    by_cases hf : updFor x op = true
    · rw [if_pos hf]
      simp [hf]
    · have hf' : updFor x op = false := by simpa using hf
      rw [if_neg (by simp [hf'])]
      simp [hf']

theorem foldl_merge_hunks (x : String) :
    ∀ (ops acc : List POp), countU x acc ≤ 1 →
      hunksFor x (ops.foldl addOpMerged acc)
        = hunksFor x acc ++ hunksFor x ops
  | [], acc, _ => by simp [List.foldl, hunksFor]
  | op :: rest, acc, h => by
    rw [List.foldl_cons,
      foldl_merge_hunks x rest (addOpMerged acc op)
        (countU_addOpMerged x acc op h).1,
      hunksFor_addOpMerged x acc op h, hunksFor, List.append_assoc]

theorem mergeUpdates_count (x : String) (ops : List POp) :
    countU x (mergeUpdates ops) ≤ 1 ∧
    (countU x (mergeUpdates ops) = 0 ↔ countU x ops = 0) := by
  obtain ⟨h1, h2⟩ := foldl_merge_count x ops [] (by simp [countU])
  refine ⟨h1, ?_⟩
  rw [mergeUpdates, h2]
  simp [countU]

theorem mergeUpdates_hunks (x : String) (ops : List POp) :
    hunksFor x (mergeUpdates ops) = hunksFor x ops := by
  rw [mergeUpdates, foldl_merge_hunks x ops [] (by simp [countU])]
  rfl

theorem applyOps_length : ∀ (ops : List POp) (fs : FS),
    (applyOps fs ops).1.length = ops.length
  | [], _ => rfl
  | op :: rest, fs => by
    rw [applyOps]
    simp only [List.length_cons]
    rw [applyOps_length rest (applyOp fs op).2]

/-- Claim C7: multiple Update operations for one path are merged by the
parser into a single Update whose hunk list is the concatenation of all
their hunks in document order, and application produces exactly one status
line per operation — hence one line for that path's single merged Update. -/
theorem claim_C7_merge_same_path_updates (patch : String)
    (raw ops : List POp) (p : String)
    (hraw : parse_patch_raw patch = .ok raw)
    (hparse : parse_patch_text patch = .ok ops)
    (hmulti : 2 ≤ countU p raw) :
    ops = mergeUpdates raw ∧
    countU p ops = 1 ∧
    hunksFor p ops = hunksFor p raw ∧
    ∀ fs, (applyOps fs ops).1.length = ops.length := by
  have hops : ops = mergeUpdates raw := by
    unfold parse_patch_text at hparse
    rw [hraw] at hparse
    simp only [Except.map, Except.ok.injEq] at hparse
    exact hparse.symm
  subst hops
  obtain ⟨h1, h2⟩ := mergeUpdates_count p raw
  refine ⟨rfl, ?_, mergeUpdates_hunks p raw, fun fs => applyOps_length _ fs⟩
  have h3 : ¬ countU p (mergeUpdates raw) = 0 := by
    rw [h2]
    omega
  omega

theorem claim_C7_merge_same_path_updates_witness :
    countU "multi_update.txt"
      [POp.upd "multi_update.txt" none
        [⟨1, [], ["Line 1"], ["Modified Line 1"], true⟩],
       POp.upd "multi_update.txt" none
        [⟨2, [], ["Line 2"], ["Modified Line 2"], true⟩]] = 2 ∧
    countU "multi_update.txt"
      (mergeUpdates
        [POp.upd "multi_update.txt" none
          [⟨1, [], ["Line 1"], ["Modified Line 1"], true⟩],
         POp.upd "multi_update.txt" none
          [⟨2, [], ["Line 2"], ["Modified Line 2"], true⟩]]) = 1 ∧
    hunksFor "multi_update.txt"
      (mergeUpdates
        [POp.upd "multi_update.txt" none
          [⟨1, [], ["Line 1"], ["Modified Line 1"], true⟩],
         POp.upd "multi_update.txt" none
          [⟨2, [], ["Line 2"], ["Modified Line 2"], true⟩]])
      = hunksFor "multi_update.txt"
        [POp.upd "multi_update.txt" none
          [⟨1, [], ["Line 1"], ["Modified Line 1"], true⟩],
         POp.upd "multi_update.txt" none
          [⟨2, [], ["Line 2"], ["Modified Line 2"], true⟩]] :=
  ⟨by decide,
   (claim_C7_merge_same_path_updates
     "*** Begin Patch\n*** Update File: multi_update.txt\n@@ -1,1 +1,1 @@\n-Line 1\n+Modified Line 1\n*** End of File\n*** Update File: multi_update.txt\n@@ -2,1 +2,1 @@\n-Line 2\n+Modified Line 2\n*** End of File\n*** End Patch"
     [POp.upd "multi_update.txt" none
       [⟨1, [], ["Line 1"], ["Modified Line 1"], true⟩],
      POp.upd "multi_update.txt" none
       [⟨2, [], ["Line 2"], ["Modified Line 2"], true⟩]]
     (mergeUpdates
       [POp.upd "multi_update.txt" none
         [⟨1, [], ["Line 1"], ["Modified Line 1"], true⟩],
        POp.upd "multi_update.txt" none
         [⟨2, [], ["Line 2"], ["Modified Line 2"], true⟩]])
     "multi_update.txt" rfl rfl (by decide)).2.1,
   (claim_C7_merge_same_path_updates
     "*** Begin Patch\n*** Update File: multi_update.txt\n@@ -1,1 +1,1 @@\n-Line 1\n+Modified Line 1\n*** End of File\n*** Update File: multi_update.txt\n@@ -2,1 +2,1 @@\n-Line 2\n+Modified Line 2\n*** End of File\n*** End Patch"
     [POp.upd "multi_update.txt" none
       [⟨1, [], ["Line 1"], ["Modified Line 1"], true⟩],
      POp.upd "multi_update.txt" none
       [⟨2, [], ["Line 2"], ["Modified Line 2"], true⟩]]
     (mergeUpdates
       [POp.upd "multi_update.txt" none
         [⟨1, [], ["Line 1"], ["Modified Line 1"], true⟩],
        POp.upd "multi_update.txt" none
         [⟨2, [], ["Line 2"], ["Modified Line 2"], true⟩]])
     "multi_update.txt" rfl rfl (by decide)).2.2.1⟩

/-- No tail of `"Error"` can start a list headed by a character other than
`'r'` or `'o'`. -/
theorem errTok_drop_not_pre {k : Nat} (h5 : k < 5) (h0 : 0 < k) {c : Char}
    (hr : c ≠ 'r') (ho : c ≠ 'o') {xs : List Char} :
    ¬ ("Error".data.drop k <+: c :: xs) := by
  intro h
  have hne : "Error".data.drop k ≠ [] := by
    interval_cases k <;> decide
  have hh := head_of_pre_cons h hne
  interval_cases k
  · exact hr (Option.some.inj (show some 'r' = some c from hh)).symm
  · exact hr (Option.some.inj (show some 'r' = some c from hh)).symm
  · exact ho (Option.some.inj (show some 'o' = some c from hh)).symm
  · exact hr (Option.some.inj (show some 'r' = some c from hh)).symm

/-- A short trailing piece of `Y ++ B` is a trailing piece of `B`. -/
theorem sfx_of_append_short {α : Type} {t Y B : List α}
    (hlen : t.length ≤ B.length) (h : t <:+ Y ++ B) : t <:+ B := by
  obtain ⟨s, hs⟩ := h
  have hslen : s.length + t.length = Y.length + B.length := by
    have hc := congrArg List.length hs
    simpa [List.length_append] using hc
  have hY : Y.length ≤ s.length := by omega
  have h1 : (s ++ t).drop s.length = t := List.drop_left s t
  rw [hs] at h1
  rw [List.drop_append_eq_append_drop, List.drop_eq_nil_of_le hY,
    List.nil_append] at h1
  rw [← h1]
  exact List.drop_suffix _ _

/-- Appending an `"Error"`-free variable part after a string ending in a
literal of length at least 4 whose tails cannot be token heads. -/
theorem errFree_var_after_litend {Y B d : String}
    (hX : ¬ containsTok (Y ++ B) "Error") (hd : ¬ containsTok d "Error")
    (hlen : 4 ≤ B.data.length)
    (hcross : ∀ k, k < 5 → 0 < k → ¬ ("Error".data.take k <:+ B.data)) :
    ¬ containsTok ((Y ++ B) ++ d) "Error" := by
  show ¬ "Error".data <:+: ((Y ++ B) ++ d).data
  rw [String.data_append]
  refine tok_not_in_append_left hX hd ?_
  intro k h5 h0 hsfx
  rw [String.data_append] at hsfx
  have hklen : ("Error".data.take k).length ≤ B.data.length := by
    have h5' : ("Error".data).length = 5 := rfl
    rw [List.length_take, h5']
    omega
  exact hcross k h5 h0 (sfx_of_append_short hklen hsfx)

/-- The `"Updated file:"` status is `"Error"`-free when the path is. -/
theorem errFree_updated_msg {q : String} (n : Nat)
    (hq : ¬ containsTok q "Error") :
    ¬ containsTok ("Updated file: " ++ q ++ renderFuzz n) "Error" := by
  have s1 : ¬ containsTok ("Updated file: " ++ q) "Error" :=
    errFree_lit_append _ (by decide) (by decide) hq
  by_cases hz : n = 0
  · have hfz : renderFuzz n = "" := by rw [renderFuzz, if_pos hz]
    rw [hfz]
    exact errFree_append_lit _ (by decide) (by decide) s1
  · have hfz : renderFuzz n = " (applied with fuzzy matching)" := by
      rw [renderFuzz, if_neg hz]
    rw [hfz]
    exact errFree_append_lit _ (by decide) (by decide) s1

/-- The `"Updated and moved"` status is `"Error"`-free when both paths are. -/
theorem errFree_moved_msg {q d : String} (n : Nat)
    (hq : ¬ containsTok q "Error") (hd : ¬ containsTok d "Error") :
    ¬ containsTok ("Updated and moved '" ++ q ++ "' to '" ++ d ++ "'"
      ++ renderFuzz n) "Error" := by
  have s1 : ¬ containsTok ("Updated and moved '" ++ q) "Error" :=
    errFree_lit_append _ (by decide) (by decide) hq
  have s2 : ¬ containsTok (("Updated and moved '" ++ q) ++ "' to '") "Error" :=
    errFree_append_lit _ (by decide) (by decide) s1
  have s3 : ¬ containsTok ((("Updated and moved '" ++ q) ++ "' to '") ++ d)
      "Error" :=
    errFree_var_after_litend s2 hd (by decide) (by decide)
  have s4 : ¬ containsTok (((("Updated and moved '" ++ q) ++ "' to '") ++ d)
      ++ "'") "Error" :=
    errFree_append_lit _ (by decide) (by decide) s3
  by_cases hz : n = 0
  · have hfz : renderFuzz n = "" := by rw [renderFuzz, if_pos hz]
    rw [hfz]
    exact errFree_append_lit _ (by decide) (by decide) s4
  · have hfz : renderFuzz n = " (applied with fuzzy matching)" := by
      rw [renderFuzz, if_neg hz]
    rw [hfz]
    exact errFree_append_lit _ (by decide) (by decide) s4

/-- Claim C2 (amended): for every Update operation (without move) on an
existing file whose path passes the guard and does not itself contain the
token `"Error"`, a hunk whose context and deletion lines match nowhere in
the file — neither exactly nor whitespace-normalized — does not abort the
operation: the hunks are applied at the best available approximate
positions, the status is `"Updated file: <path>"` (with a fuzzy caveat) and
contains no `"Error"`.  (For a path containing `"Error"` the success status
contains the token — see the counterexample.) -/
theorem claim_C2_update_mismatch_tolerated (fs : FS) (p : String)
    (hs : List Hunk) (c : String)
    (hguard : pathError p = none)
    (hfile : fsFind fs p = some c)
    (_hmismatch : ∃ h ∈ hs,
      findSpan (splitContent c).1 (h.context_before ++ h.del_lines) 0
        = none ∧
      findSpanNorm (splitContent c).1 (h.context_before ++ h.del_lines) 0
        = none)
    (hp : ¬ containsTok p "Error") :
    applyOp fs (.upd p none hs)
      = (.ok ("Updated file: " ++ p ++ renderFuzz (updateContent c hs).2),
        fsSet fs p (updateContent c hs).1) ∧
    containsTok (OpStatus.render (applyOp fs (.upd p none hs)).1)
      ("Updated file: " ++ p) ∧
    ¬ containsTok (OpStatus.render (applyOp fs (.upd p none hs)).1)
      "Error" := by
  have he : applyOp fs (.upd p none hs)
      = (.ok ("Updated file: " ++ p ++ renderFuzz (updateContent c hs).2),
        fsSet fs p (updateContent c hs).1) := by
    simp only [applyOp]
    rw [hguard, hfile]
  rw [he]
  refine ⟨rfl, ?_, ?_⟩
  · exact tok_in_str_append_left _ _ (tok_self _)
  · exact errFree_updated_msg _ hp

theorem claim_C2_update_mismatch_tolerated_witness :
    pathError "context_error.py" = none ∧
    findSpan (splitContent "def function_one():\n    return 1\n").1
      (["def non_existent_function():"] ++ ["    return 0"]) 0 = none ∧
    findSpanNorm (splitContent "def function_one():\n    return 1\n").1
      (["def non_existent_function():"] ++ ["    return 0"]) 0 = none ∧
    containsTok
      (OpStatus.render
        (applyOp [("context_error.py", "def function_one():\n    return 1\n")]
          (.upd "context_error.py" none
            [⟨1, ["def non_existent_function():"], ["    return 0"],
              ["    return 1"], true⟩])).1)
      ("Updated file: " ++ "context_error.py") ∧
    ¬ containsTok
      (OpStatus.render
        (applyOp [("context_error.py", "def function_one():\n    return 1\n")]
          (.upd "context_error.py" none
            [⟨1, ["def non_existent_function():"], ["    return 0"],
              ["    return 1"], true⟩])).1)
      "Error" :=
  ⟨rfl, rfl, rfl,
    (claim_C2_update_mismatch_tolerated
      [("context_error.py", "def function_one():\n    return 1\n")]
      "context_error.py"
      [⟨1, ["def non_existent_function():"], ["    return 0"],
        ["    return 1"], true⟩]
      "def function_one():\n    return 1\n" rfl rfl
      ⟨⟨1, ["def non_existent_function():"], ["    return 0"],
        ["    return 1"], true⟩, by simp, rfl, rfl⟩
      (by decide)).2.1,
    (claim_C2_update_mismatch_tolerated
      [("context_error.py", "def function_one():\n    return 1\n")]
      "context_error.py"
      [⟨1, ["def non_existent_function():"], ["    return 0"],
        ["    return 1"], true⟩]
      "def function_one():\n    return 1\n" rfl rfl
      ⟨⟨1, ["def non_existent_function():"], ["    return 0"],
        ["    return 1"], true⟩, by simp, rfl, rfl⟩
      (by decide)).2.2⟩

/-- Counterexample to claim C2 as stated: for the file `"Error.txt"` an
Update with an unmatched hunk still succeeds tolerantly — the status
carries `"Updated file: Error.txt"` — but the status does contain the token
`"Error"` (inside the path), so the claim's "with no 'Error'" clause fails. -/
theorem claim_C2_counterexample :
    (applyOp [("Error.txt", "a")]
      (.upd "Error.txt" none [⟨1, ["zzz"], [], [], false⟩])).1
      = .ok "Updated file: Error.txt (applied with fuzzy matching)" ∧
    containsTok
      (OpStatus.render
        (applyOp [("Error.txt", "a")]
          (.upd "Error.txt" none [⟨1, ["zzz"], [], [], false⟩])).1)
      ("Updated file: " ++ "Error.txt") ∧
    containsTok
      (OpStatus.render
        (applyOp [("Error.txt", "a")]
          (.upd "Error.txt" none [⟨1, ["zzz"], [], [], false⟩])).1)
      "Error" :=
  ⟨rfl, by decide, by decide⟩

/-- Every block-failure message also contains the token `"Error"`. -/
theorem applyBlocks_err_error :
    ∀ (bs : List EditBlock) (lines : List String),
      ∀ e ∈ (applyBlocks lines bs).2.2, containsTok e "Error"
  | [], _, e, he => absurd he (by simp [applyBlocks])
  | b :: rest, lines, e, he => by
    rw [applyBlocks] at he
    cases hb : applyOneBlock lines b with
    | ok newLines =>
      rw [hb] at he
      simp only at he
      exact applyBlocks_err_error rest newLines e he
    | error msg =>
      rw [hb] at he
      simp only [List.mem_cons] at he
      rcases he with rfl | he
      · have hmsg : applyOneBlock lines b = .error e := hb
        unfold applyOneBlock at hmsg
        dsimp only at hmsg
        split at hmsg
        · cases hmsg
          exact tok_in_str_append_left _ _ (tok_in_str_append_left _ _
            (by decide))
        · split at hmsg
          · cases hmsg
          · cases hmsg
            exact tok_in_str_append_left _ _ (tok_in_str_append_left _ _
              (by decide))
      · exact applyBlocks_err_error rest lines e he

/-- When a call of `apply_diff_tool` fails, its status contains `"Error"`. -/
theorem diff_fail_has_error (fs : FS) (path diff : String)
    (h : diffCallFails fs path diff = true) :
    containsTok (apply_diff_tool fs path diff).1 "Error" := by
  by_cases hd : diff = ""
  · have he : (apply_diff_tool fs path diff).1
        = "Error: 'diff' argument is required." := by
      subst hd
      rfl
    rw [he]
    decide
  · by_cases hp : path = ""
    · have he : (apply_diff_tool fs path diff).1
          = "Error: 'path' argument is required." := by
        unfold apply_diff_tool
        rw [if_neg hd]
        subst hp
        rfl
      rw [he]
      decide
    · cases hpe : pathError path with
      | some e =>
        have he : (apply_diff_tool fs path diff).1 = "Error: " ++ e := by
          unfold apply_diff_tool
          rw [if_neg hd, if_neg hp, hpe]
        rw [he]
        exact tok_in_str_append_left _ _ (by decide)
      | none =>
        cases hps : parse_diff_blocks diff with
        | error e =>
          have he : (apply_diff_tool fs path diff).1 = "Error: " ++ e := by
            unfold apply_diff_tool
            rw [if_neg hd, if_neg hp, hpe, hps]
          rw [he]
          exact tok_in_str_append_left _ _ (by decide)
        | ok blocks =>
          cases hff : fsFind fs path with
          | none =>
            have he : (apply_diff_tool fs path diff).1
                = "Error: File not found: '" ++ path ++ "'" := by
              unfold apply_diff_tool
              rw [if_neg hd, if_neg hp, hpe, hps, hff]
            rw [he]
            exact tok_in_str_append_left _ _ (tok_in_str_append_left _ _
              (by decide))
          | some content =>
            have hE : (applyBlocks (splitContent content).1
                blocks).2.2.isEmpty = false := by
              unfold diffCallFails at h
              rw [if_neg hd, if_neg hp, hpe, hps, hff] at h
              have h' : (!(applyBlocks (splitContent content).1
                  blocks).2.2.isEmpty) = true := h
              simpa using h' 
            have hcore : apply_diff_tool fs path diff
                = (if (applyBlocks (splitContent content).1
                      blocks).2.2.isEmpty then
                    ("Successfully applied " ++ toString blocks.length
                      ++ " diff block(s) to '" ++ path ++ "'.",
                     fsSet fs path
                       (joinContent
                         (applyBlocks (splitContent content).1 blocks).1
                         (splitContent content).2))
                  else
                    (joinLines
                      ((applyBlocks (splitContent content).1 blocks).2.2
                        ++ (applyBlocks (splitContent content).1 blocks).2.1),
                     fs)) := by
              unfold apply_diff_tool
              rw [if_neg hd, if_neg hp, hpe, hps, hff]
            rw [hcore, if_neg (by simp [hE])]
            cases hc : (applyBlocks (splitContent content).1 blocks).2.2 with
            | nil =>
              rw [hc] at hE
              cases hE
            | cons x xs =>
              have hx : containsTok x "Error" :=
                applyBlocks_err_error blocks (splitContent content).1 x
                  (by rw [hc]; exact List.mem_cons_self x xs)
              exact tok_in_join (by simp) hx

theorem render_err_has_error (st : OpStatus) (h : st.isErr = true) :
    containsTok (OpStatus.render st) "Error" := by
  cases st with
  | ok m => cases h
  | err m => exact tok_in_str_append_left _ _ (by decide)

/-- When a call of `apply_patch` fails, its status contains `"Error"`. -/
theorem patch_fail_has_error (fs : FS) (patch : String)
    (h : patchFails fs patch = true) :
    containsTok (apply_patch fs patch).1 "Error" := by
  unfold patchFails at h
  obtain ⟨st, hmem, herr⟩ := List.any_eq_true.1 h
  show containsTok
    (joinLines ((apply_patch_core fs patch).1.map OpStatus.render)) "Error"
  exact tok_in_join (List.mem_map_of_mem _ hmem) (render_err_has_error st herr)

/-- A non-error status of a single operation with `"Error"`-free paths does
not contain the token `"Error"`. -/
theorem applyOp_ok_errFree (fs : FS) (op : POp) (hop : opErrFree op)
    (hok : (applyOp fs op).1.isErr = false) :
    ¬ containsTok (OpStatus.render (applyOp fs op).1) "Error" := by
  cases op with
  | add q ls =>
    have hq : ¬ containsTok q "Error" := hop
    cases hpe : pathError q with
    | some e =>
      have hbad : (applyOp fs (.add q ls)).1 = .err e := by
        simp only [applyOp]
        rw [hpe]
      rw [hbad] at hok
      cases hok
    | none =>
      cases hf : fsFind fs q with
      | some c =>
        have hbad : (applyOp fs (.add q ls)).1
            = .err ("Cannot add file '" ++ q ++ "': path already exists.") := by
          simp only [applyOp]
          rw [hpe, hf]
        rw [hbad] at hok
        cases hok
      | none =>
        have heq : (applyOp fs (.add q ls)).1
            = .ok ("Created file: " ++ q) := by
          simp only [applyOp]
          rw [hpe, hf]
        rw [heq]
        exact errFree_lit_append _ (by decide) (by decide) hq
  | del q =>
    have hq : ¬ containsTok q "Error" := hop
    cases hpe : pathError q with
    | some e =>
      have hbad : (applyOp fs (.del q)).1 = .err e := by
        simp only [applyOp]
        rw [hpe]
      rw [hbad] at hok
      cases hok
    | none =>
      cases hf : fsFind fs q with
      | none =>
        have heq : (applyOp fs (.del q)).1
            = .ok ("Info: File to delete not found: " ++ q) := by
          simp only [applyOp]
          rw [hpe, hf]
        rw [heq]
        exact errFree_lit_append _ (by decide) (by decide) hq
      | some c =>
        have heq : (applyOp fs (.del q)).1 = .ok ("Deleted file: " ++ q) := by
          simp only [applyOp]
          rw [hpe, hf]
        rw [heq]
        exact errFree_lit_append _ (by decide) (by decide) hq
  | upd q mv hs =>
    have hq : ¬ containsTok q "Error" := hop.1
    cases hpe : pathError q with
    | some e =>
      have hbad : (applyOp fs (.upd q mv hs)).1 = .err e := by
        simp only [applyOp]
        rw [hpe]
      rw [hbad] at hok
      cases hok
    | none =>
      cases hf : fsFind fs q with
      | none =>
        have hbad : (applyOp fs (.upd q mv hs)).1
            = .err ("File to update not found: " ++ q) := by
          simp only [applyOp]
          rw [hpe, hf]
        rw [hbad] at hok
        cases hok
      | some c =>
        cases mv with
        | none =>
          have heq : (applyOp fs (.upd q none hs)).1
              = .ok ("Updated file: " ++ q
                  ++ renderFuzz (updateContent c hs).2) := by
            simp only [applyOp]
            rw [hpe, hf]
          rw [heq]
          exact errFree_updated_msg _ hq
        | some dest =>
          have hd : ¬ containsTok dest "Error" := hop.2
          cases hped : pathError dest with
          | some e =>
            have hbad : (applyOp fs (.upd q (some dest) hs)).1 = .err e := by
              simp only [applyOp]
              rw [hpe, hf, hped]
            rw [hbad] at hok
            cases hok
          | none =>
            cases hfd : fsFind fs dest with
            | some c2 =>
              have hbad : (applyOp fs (.upd q (some dest) hs)).1
                  = .err ("Cannot move '" ++ q ++ "' to '" ++ dest
                      ++ "': destination already exists.") := by
                simp only [applyOp]
                rw [hpe, hf, hped, hfd]
              rw [hbad] at hok
              cases hok
            | none =>
              have heq : (applyOp fs (.upd q (some dest) hs)).1
                  = .ok ("Updated and moved '" ++ q ++ "' to '" ++ dest
                      ++ "'" ++ renderFuzz (updateContent c hs).2) := by
                simp only [applyOp]
                rw [hpe, hf, hped, hfd]
              rw [heq]
              exact errFree_moved_msg _ hq hd

/-- All-ok operation sequences with `"Error"`-free paths render
`"Error"`-free statuses. -/
theorem applyOps_ok_errFree : ∀ (ops : List POp) (fs : FS),
    (∀ op ∈ ops, opErrFree op) →
    (∀ st ∈ (applyOps fs ops).1, st.isErr = false) →
    ∀ st ∈ (applyOps fs ops).1, ¬ containsTok (OpStatus.render st) "Error"
  | [], fs, _, _, st, hst => absurd hst (by simp [applyOps])
  | op :: rest, fs, hops, hok, st, hst => by
    rw [applyOps] at hst
    simp only [List.mem_cons] at hst
    rcases hst with rfl | hst
    · refine applyOp_ok_errFree fs op (hops op (by simp)) ?_
      refine hok _ ?_
      rw [applyOps]
      simp
    · refine applyOps_ok_errFree rest (applyOp fs op).2
        (fun o ho => hops o (by simp [ho])) ?_ st hst
      intro s hs
      refine hok s ?_
      rw [applyOps]
      simp [hs]

/-- A successful `apply_patch` call on `"Error"`-free paths returns a
status without the token `"Error"`. -/
theorem patch_ok_no_error (fs : FS) (patch : String)
    (hok : patchFails fs patch = false)
    (hops : ∀ ops, parse_patch_text patch = .ok ops →
      ∀ op ∈ ops, opErrFree op) :
    ¬ containsTok (apply_patch fs patch).1 "Error" := by
  by_cases h0 : patch = ""
  · have : patchFails fs patch = true := by
      subst h0
      rfl
    rw [this] at hok
    cases hok
  · by_cases h1 : strStarts patch "*** Begin Patch" = true
    · by_cases h2 : strEnds (strTrim patch) "*** End Patch" = true
      · cases hp : parse_patch_text patch with
        | error e =>
          have : patchFails fs patch = true := by
            unfold patchFails apply_patch_core
            rw [if_neg h0, h1, h2, hp]
            rfl
          rw [this] at hok
          cases hok
        | ok ops =>
          cases ops with
          | nil =>
            have heq : (apply_patch fs patch).1
                = "Patch contained no operations." := by
              unfold apply_patch apply_patch_core
              rw [if_neg h0, h1, h2, hp]
              rfl
            rw [heq]
            decide
          | cons op rest =>
            have hcore : apply_patch_core fs patch
                = applyOps fs (op :: rest) := by
              unfold apply_patch_core
              rw [if_neg h0, h1, h2, hp]
              rfl
            have hall_ok : ∀ st ∈ (applyOps fs (op :: rest)).1,
                st.isErr = false := by
              intro st hst
              unfold patchFails at hok
              rw [hcore] at hok
              have := List.any_eq_false.1 hok st hst
              simpa using this
            have herr := applyOps_ok_errFree (op :: rest) fs (hops _ hp)
              hall_ok
            show ¬ containsTok
              (joinLines ((apply_patch_core fs patch).1.map OpStatus.render))
              "Error"
            rw [hcore]
            refine errFree_join ?_
            intro s hsmem
            obtain ⟨st, hstmem, rfl⟩ := List.mem_map.1 hsmem
            exact herr st hstmem
      · have h2' : strEnds (strTrim patch) "*** End Patch" = false := by
          simpa using h2
        have : patchFails fs patch = true := by
          unfold patchFails apply_patch_core
          rw [if_neg h0, h1, h2']
          rfl
        rw [this] at hok
        cases hok
    · have h1' : strStarts patch "*** Begin Patch" = false := by
        simpa using h1
      have : patchFails fs patch = true := by
        unfold patchFails apply_patch_core
        rw [if_neg h0, h1']
        rfl
      rw [this] at hok
      cases hok

/-- Claim C4 (amended): whenever a call of either tool fails, the returned
status contains the token `"Error"`; whenever an `apply_patch` call
succeeds *and no operation path or move destination itself contains the
token*, the status does not contain `"Error"`.  (A success status embeds
the path verbatim, so a path such as `"Error.txt"` makes the original
unconditional claim fail — see the counterexample.) -/
theorem claim_C4_error_token (fs : FS) (path diff : String)
    (fs2 : FS) (patch : String) :
    (diffCallFails fs path diff = true →
      containsTok (apply_diff_tool fs path diff).1 "Error") ∧
    (patchFails fs2 patch = true →
      containsTok (apply_patch fs2 patch).1 "Error") ∧
    (patchFails fs2 patch = false →
      (∀ ops, parse_patch_text patch = .ok ops → ∀ op ∈ ops, opErrFree op) →
      ¬ containsTok (apply_patch fs2 patch).1 "Error") :=
  ⟨diff_fail_has_error fs path diff,
   patch_fail_has_error fs2 patch,
   patch_ok_no_error fs2 patch⟩

theorem claim_C4_error_token_witness :
    diffCallFails [] "p.txt" "This is not a valid diff format" = true ∧
    containsTok
      (apply_diff_tool [] "p.txt" "This is not a valid diff format").1
      "Error" ∧
    patchFails [] "*** Begin Patch\n*** Add File: a.txt\n+x\n*** End Patch"
      = false ∧
    ¬ containsTok
      (apply_patch []
        "*** Begin Patch\n*** Add File: a.txt\n+x\n*** End Patch").1
      "Error" :=
  ⟨rfl,
   (claim_C4_error_token [] "p.txt" "This is not a valid diff format" []
     "*** Begin Patch\n*** Add File: a.txt\n+x\n*** End Patch").1 rfl,
   rfl,
   (claim_C4_error_token [] "p.txt" "This is not a valid diff format" []
     "*** Begin Patch\n*** Add File: a.txt\n+x\n*** End Patch").2.2 rfl
     (fun ops hp => by
       have hinj : Except.ok [POp.add "a.txt" ["x"]]
           = (Except.ok ops : Except String (List POp)) := hp
       have hops : ops = [POp.add "a.txt" ["x"]] :=
         (Except.ok.inj hinj).symm
       subst hops
       intro op hop
       have heq : op = POp.add "a.txt" ["x"] := by simpa using hop
       subst heq
       show ¬ containsTok "a.txt" "Error"
       decide)⟩

/-- Counterexample to claim C4 as stated: adding the file `"Error.txt"`
succeeds (no status line is an error line) and yet the status string
contains the token `"Error"`, because the success message embeds the path. -/
theorem claim_C4_counterexample :
    patchFails [] "*** Begin Patch\n*** Add File: Error.txt\n+x\n*** End Patch"
      = false ∧
    (apply_patch []
        "*** Begin Patch\n*** Add File: Error.txt\n+x\n*** End Patch").1
      = "Created file: Error.txt" ∧
    containsTok
      (apply_patch []
        "*** Begin Patch\n*** Add File: Error.txt\n+x\n*** End Patch").1
      "Error" :=
  ⟨rfl, rfl, by decide⟩
